import Mathlib

/-!
Verification of the scoutcomp points-accrual and rate-limiting engine.

Shallow embedding of `backend/app/routers/tasks.py`,
`backend/app/routers/completions.py`, `backend/app/routers/leaderboard.py`
and `backend/app/routers/users.py` over the data model of
`backend/app/models.py`.

Modelling conventions:
- timestamps (`datetime`) are seconds as `Int`; `timedelta` arithmetic
  becomes integer arithmetic (Python floor division `//` on timedeltas is
  `Int.fdiv`);
- SQL float columns (`points_per_completion`, `points_awarded`, weights)
  are `Rat`, so the algebraic claims are exact;
- a SQL aggregate `sum ... group by` over a table becomes a fold over a
  Lean list of rows;
- a FastAPI handler becomes a function returning the unchanged store
  paired with `Except HttpError result`; raising `HTTPException` before
  `db.commit` is the `.error` branch with the store untouched.
-/

namespace Scoutcomp

/-- Seconds since an arbitrary epoch; stands for `datetime.utcnow()` values. -/
abbrev Time := Int

/-- `CompletionStatus` from `models.py`. -/
inductive CompletionStatus where
  | pending
  | approved
  | rejected
deriving DecidableEq, Repr

/-- `TaskPeriodUnit` from `models.py`. -/
inductive TaskPeriodUnit where
  | hour
  | day
  | week
  | month
deriving DecidableEq, Repr

/-- `RoleEnum` from `models.py`. -/
inductive RoleEnum where
  | admin
  | member
  | groupAdmin
deriving DecidableEq, Repr

/-- `StatMetricEnum` from `models.py`. -/
inductive StatMetricEnum where
  | points
  | completions
deriving DecidableEq, Repr

/-- Error taxonomy: the `HTTPException` status codes raised by the handlers. -/
inductive HttpError where
  | notFound
  | badRequest
  | gone
  | forbidden
  | conflict
deriving DecidableEq, Repr

/-- The `tasks` table row (`models.Task`), restricted to the columns the
points/rate-limit engine reads.  `start_time` is a non-nullable column with
a `now()` default, hence not an `Option`. -/
structure Task where
  id : Nat
  teamId : Option Nat
  startTime : Time
  endTime : Option Time
  pointsPerCompletion : Rat
  maxPerPeriod : Option Nat
  periodUnit : Option TaskPeriodUnit
  periodCount : Option Nat
  requiresApproval : Bool
  isArchived : Bool
deriving DecidableEq, Repr

/-- A `task_variants` row: the columns read by the completion handlers
(`variant.task_id` for validation, `variant.points` for scoring). -/
structure TaskVariant where
  id : Nat
  taskId : Nat
  points : Rat
deriving DecidableEq, Repr

/-- The `users` table row plus the resolved `managed_teams` association
(`dependencies.get_managed_team_ids`). -/
structure User where
  id : Nat
  role : RoleEnum
  teamId : Option Nat
  managedTeamIds : List Nat
deriving DecidableEq, Repr

/-- A `completions` table row (`models.Completion` plus the migrated
`variant_id` column). -/
structure Completion where
  id : Nat
  memberId : Nat
  taskId : Nat
  variantId : Option Nat
  status : CompletionStatus
  submittedAt : Time
  reviewedAt : Option Time
  reviewerId : Option Nat
  memberNote : Option String
  adminNote : Option String
  pointsAwarded : Rat
  count : Nat
deriving DecidableEq, Repr

/-- A `notifications` row as created by the review / admin-create handlers
(message text is produced by the external localization collaborator). -/
structure Notification where
  userId : Nat
  senderId : Option Nat
deriving DecidableEq, Repr

/-- The persistence store visible to the engine.  `teamIds` stands for the
`teams` table (only existence of a team id matters to the engine). -/
structure Env where
  teamIds : List Nat
  tasks : List Task
  variants : List TaskVariant
  users : List User
  completions : List Completion
deriving DecidableEq, Repr

/-- `db.get(Task, task_id)`. -/
def findTask (env : Env) (taskId : Nat) : Option Task :=
  env.tasks.find? (fun t => t.id = taskId)

/-- `db.get(TaskVariant, variant_id)`. -/
def findVariant (env : Env) (variantId : Nat) : Option TaskVariant :=
  env.variants.find? (fun v => v.id = variantId)

/-- `db.get(User, user_id)`. -/
def findUser (env : Env) (userId : Nat) : Option User :=
  env.users.find? (fun u => u.id = userId)

/-- Lookup of a completion by primary key. -/
def findCompletion (env : Env) (completionId : Nat) : Option Completion :=
  env.completions.find? (fun c => c.id = completionId)

/-- `tasks._window_delta`: period length in seconds.  Mirrors the Python
`delta_map`; `month` is the fixed 30-day approximation. -/
def windowDelta (task : Task) : Option Int :=
  match task.maxPerPeriod, task.periodUnit, task.periodCount with
  | some _, some u, some c =>
      some (match u with
        | .hour => 3600 * (c : Int)
        | .day => 86400 * (c : Int)
        | .week => 7 * 86400 * (c : Int)
        | .month => 30 * 86400 * (c : Int))
  | _, _, _ => none

/-- Python truthiness of an `Optional[timedelta]`: `None` and the zero
timedelta are both falsy (`if not delta`). -/
def deltaFalsy (d : Option Int) : Bool :=
  match d with
  | none => true
  | some x => x = 0

/-- `tasks._current_window_stats`: usage in the current recurrence window,
with the window bounds.  The usage is the SQL
`sum(Completion.count)` filtered to the member, the task, non-rejected
status and `submitted_at ∈ [window_start, window_end)`. -/
def currentWindowStats (completions : List Completion) (task : Task)
    (memberId : Nat) (now : Time) : Nat × Option Time × Option Time :=
  match windowDelta task with
  | none => (0, none, none)
  | some delta =>
    if delta = 0 then (0, none, none)
    else
      let start := task.startTime
      let windowStart :=
        if now < start then start
        else start + (Int.fdiv (now - start) delta) * delta
      let windowEnd := windowStart + delta
      let total :=
        ((completions.filter (fun c =>
            c.taskId = task.id ∧ c.memberId = memberId ∧
            c.status ≠ CompletionStatus.rejected ∧
            windowStart ≤ c.submittedAt ∧ c.submittedAt < windowEnd)).map
          (fun c => c.count)).sum
      (total, some windowStart, some windowEnd)

/-- `schemas.TaskProgress`. -/
structure TaskProgress where
  current : Nat
  remaining : Option Nat
  limit : Option Nat
  periodStart : Option Time
  periodEnd : Option Time
  lifetime : Nat
deriving DecidableEq, Repr

/-- `tasks._calculate_progress`.  `remaining = max(max_per_period −
current_count, 0)` is Nat truncated subtraction. -/
def calculateProgress (completions : List Completion) (task : Task)
    (memberId : Nat) (now : Time) : TaskProgress :=
  let totalAll :=
    ((completions.filter (fun c =>
        c.taskId = task.id ∧ c.memberId = memberId ∧
        c.status ≠ CompletionStatus.rejected)).map (fun c => c.count)).sum
  let stats := currentWindowStats completions task memberId now
  match task.maxPerPeriod with
  | none =>
      { current := totalAll, remaining := none, limit := none,
        periodStart := none, periodEnd := none, lifetime := totalAll }
  | some m =>
      { current := stats.1, remaining := some (m - stats.1), limit := some m,
        periodStart := stats.2.1, periodEnd := stats.2.2, lifetime := totalAll }

/-- `tasks._assert_task_access`.  The team check precedes the archived
check; `if task.team_id and ...` treats a present (positive) team id as
truthy. -/
def assertTaskAccess (task : Task) (user : User) : Except HttpError Unit :=
  match task.teamId with
  | some tid =>
      if user.role ≠ RoleEnum.admin ∧ user.teamId ≠ some tid then
        .error .forbidden
      else if task.isArchived then .error .gone else .ok ()
  | none => if task.isArchived then .error .gone else .ok ()

/-- `tasks._assert_task_window` (`start_time` is non-nullable, so its
truthiness test always passes). -/
def assertTaskWindow (task : Task) (now : Time) : Except HttpError Unit :=
  if now < task.startTime then .error .badRequest
  else
    match task.endTime with
    | some e => if e < now then .error .badRequest else .ok ()
    | none => .ok ()

/-- `count = payload.count or 1` in `tasks.submit_completion`: Python `or`
maps a falsy `0` to `1`. -/
def effectiveCount (payloadCount : Nat) : Nat :=
  if payloadCount = 0 then 1 else payloadCount

/-- The status the submitted completion is created with
(`PENDING if task.requires_approval else APPROVED`). -/
def submitStatusTarget (task : Task) : CompletionStatus :=
  if task.requiresApproval then CompletionStatus.pending
  else CompletionStatus.approved

/-- The row `tasks.submit_completion` builds and commits once all the
guards have passed: no variant (the submission schema carries none);
`submitted_at` takes the column default evaluated in the same request,
modelled as `now`. -/
def submitBuiltCompletion (user : User) (task : Task)
    (memberNote : Option String) (now : Time) (newId : Nat)
    (count : Nat) : Completion :=
  { id := newId, memberId := user.id, taskId := task.id,
    variantId := none, status := submitStatusTarget task, submittedAt := now,
    reviewedAt :=
      if submitStatusTarget task = CompletionStatus.approved then some now
      else none,
    reviewerId := none, memberNote := memberNote, adminNote := none,
    pointsAwarded :=
      if submitStatusTarget task = CompletionStatus.approved then
        task.pointsPerCompletion * (count : Rat)
      else 0,
    count := count }

/-- The committed store and response of an accepted submission. -/
def submitAccept (env : Env) (user : User) (task : Task)
    (memberNote : Option String) (now : Time) (newId : Nat)
    (count : Nat) : Env × Except HttpError Completion :=
  ({ env with
      completions :=
        env.completions ++ [submitBuiltCompletion user task memberNote now newId count] },
   .ok (submitBuiltCompletion user task memberNote now newId count))

/-- `tasks.submit_completion`.  On error the store is returned unchanged
(the handler raises before `db.add`). -/
def submitCompletion (env : Env) (user : User) (taskId : Nat)
    (payloadCount : Nat) (memberNote : Option String) (now : Time)
    (newId : Nat) : Env × Except HttpError Completion :=
  match findTask env taskId with
  | none => (env, .error .notFound)
  | some task =>
    match assertTaskAccess task user with
    | .error e => (env, .error e)
    | .ok _ =>
      match assertTaskWindow task now with
      | .error e => (env, .error e)
      | .ok _ =>
        match (calculateProgress env.completions task user.id now).remaining with
        | some r =>
            if r < effectiveCount payloadCount then (env, .error .badRequest)
            else submitAccept env user task memberNote now newId
              (effectiveCount payloadCount)
        | none => submitAccept env user task memberNote now newId
            (effectiveCount payloadCount)

/-- `tasks._validate_period_fields`: returns without checking anything when
`max_per_period` is absent; otherwise requires unit and count. -/
def validatePeriodFields (maxPerPeriod : Option Nat)
    (periodUnit : Option TaskPeriodUnit) (periodCount : Option Nat) :
    Except HttpError Unit :=
  match maxPerPeriod with
  | none => .ok ()
  | some _ =>
      if periodUnit = none ∨ periodCount = none then .error .badRequest
      else .ok ()

/-- `tasks._ensure_team_exists`. -/
def ensureTeamExists (env : Env) (teamId : Option Nat) : Except HttpError Unit :=
  match teamId with
  | none => .ok ()
  | some tid => if tid ∈ env.teamIds then .ok () else .error .notFound

/-- `schemas.TaskCreate`, restricted to the engine's columns. -/
structure TaskCreatePayload where
  teamId : Option Nat
  startTime : Option Time
  endTime : Option Time
  pointsPerCompletion : Rat
  maxPerPeriod : Option Nat
  periodUnit : Option TaskPeriodUnit
  periodCount : Option Nat
  requiresApproval : Bool
deriving DecidableEq, Repr

/-- `tasks.create_task`. -/
def createTask (env : Env) (payload : TaskCreatePayload) (now : Time)
    (newId : Nat) : Env × Except HttpError Task :=
  match validatePeriodFields payload.maxPerPeriod payload.periodUnit
      payload.periodCount with
  | .error e => (env, .error e)
  | .ok _ =>
    match ensureTeamExists env payload.teamId with
    | .error e => (env, .error e)
    | .ok _ =>
      let task : Task :=
        { id := newId, teamId := payload.teamId,
          startTime := payload.startTime.getD now,
          endTime := payload.endTime,
          pointsPerCompletion := payload.pointsPerCompletion,
          maxPerPeriod := payload.maxPerPeriod,
          periodUnit := payload.periodUnit,
          periodCount := payload.periodCount,
          requiresApproval := payload.requiresApproval,
          isArchived := false }
      ({ env with tasks := env.tasks ++ [task] }, .ok task)

/-- `schemas.TaskUpdate` under `dict(exclude_unset=True)`: the outer
`Option` is "field present in the patch", the inner value is what it is
set to (nullable columns can be patched to null). -/
structure TaskUpdatePayload where
  startTime : Option Time
  endTime : Option (Option Time)
  pointsPerCompletion : Option Rat
  maxPerPeriod : Option (Option Nat)
  periodUnit : Option (Option TaskPeriodUnit)
  periodCount : Option (Option Nat)
  requiresApproval : Option Bool
  isArchived : Option Bool
  teamId : Option (Option Nat)
deriving DecidableEq, Repr

/-- `tasks.update_task`: the recurrence trio is validated on the values
merged with the current row whenever any of the three keys is in the
patch. -/
def updateTask (env : Env) (taskId : Nat) (p : TaskUpdatePayload) :
    Env × Except HttpError Task :=
  match findTask env taskId with
  | none => (env, .error .notFound)
  | some task =>
    let mergedMax := p.maxPerPeriod.getD task.maxPerPeriod
    let mergedUnit := p.periodUnit.getD task.periodUnit
    let mergedCount := p.periodCount.getD task.periodCount
    let periodCheck : Except HttpError Unit :=
      if p.maxPerPeriod.isSome || p.periodUnit.isSome || p.periodCount.isSome then
        validatePeriodFields mergedMax mergedUnit mergedCount
      else .ok ()
    match periodCheck with
    | .error e => (env, .error e)
    | .ok _ =>
      let teamCheck : Except HttpError Unit :=
        match p.teamId with
        | some tid => ensureTeamExists env tid
        | none => .ok ()
      match teamCheck with
      | .error e => (env, .error e)
      | .ok _ =>
        let updated : Task :=
          { task with
            startTime := p.startTime.getD task.startTime,
            endTime := p.endTime.getD task.endTime,
            pointsPerCompletion :=
              p.pointsPerCompletion.getD task.pointsPerCompletion,
            maxPerPeriod := mergedMax,
            periodUnit := mergedUnit,
            periodCount := mergedCount,
            requiresApproval := p.requiresApproval.getD task.requiresApproval,
            isArchived := p.isArchived.getD task.isArchived,
            teamId := p.teamId.getD task.teamId }
        ({ env with
            tasks := env.tasks.map (fun t => if t.id = taskId then updated else t) },
         .ok updated)

/-- `schemas.CompletionReview` as it reaches the handler. -/
structure CompletionReviewPayload where
  status : CompletionStatus
  adminNote : Option String
deriving DecidableEq, Repr

/-- The per-unit point value a completion scores with: the variant's
points when the row references an (existing) variant, else the task's
`points_per_completion`. -/
def perUnitPoints (env : Env) (task : Task) (c : Completion) : Rat :=
  match c.variantId.bind (findVariant env) with
  | some v => v.points
  | none => task.pointsPerCompletion

/-- The group-admin scope check of `completions.review_completion`: a
group admin needs a non-empty managed set containing the member's team
(a member without a team is out of scope). -/
def reviewAuthz (reviewer : User) (member : User) : Except HttpError Unit :=
  if reviewer.role = RoleEnum.groupAdmin then
    if reviewer.managedTeamIds = [] then .error .forbidden
    else
      match member.teamId with
      | some tid =>
          if tid ∈ reviewer.managedTeamIds then .ok ()
          else .error .forbidden
      | none => .error .forbidden
  else .ok ()

/-- The mutated row built by `completions.review_completion` once the
guards have passed: both terminal branches stamp the reviewer and
`reviewed_at = now`; the approved branch recomputes the award from the
variant or task price and the row's count, the rejected branch zeroes
it. -/
def reviewUpdatedCompletion (env : Env) (task : Task) (c : Completion)
    (reviewer : User) (payload : CompletionReviewPayload) (now : Time) :
    Completion :=
  let base : Completion :=
    { c with
      status := payload.status, adminNote := payload.adminNote,
      reviewerId := some reviewer.id, reviewedAt := some now }
  if payload.status = CompletionStatus.approved then
    { base with pointsAwarded := perUnitPoints env task c * (c.count : Rat) }
  else { base with pointsAwarded := 0 }

/-- `completions.review_completion`.  Check order follows the handler:
lookup, pending target, missing task/member (`Conflict`), group-admin
scope, then the mutation; both terminal branches stamp reviewer and
`reviewed_at` and build a notification to the member. -/
def reviewCompletion (env : Env) (reviewer : User) (completionId : Nat)
    (payload : CompletionReviewPayload) (now : Time) :
    Env × Except HttpError (Completion × Notification) :=
  match findCompletion env completionId with
  | none => (env, .error .notFound)
  | some completion =>
    if payload.status = CompletionStatus.pending then (env, .error .badRequest)
    else
      match findTask env completion.taskId, findUser env completion.memberId with
      | some task, some member =>
        match reviewAuthz reviewer member with
        | .error e => (env, .error e)
        | .ok _ =>
          ({ env with
              completions :=
                env.completions.map
                  (fun c =>
                    if c.id = completionId then
                      reviewUpdatedCompletion env task completion reviewer
                        payload now
                    else c) },
           .ok (reviewUpdatedCompletion env task completion reviewer payload now,
                { userId := completion.memberId, senderId := some reviewer.id }))
      | _, _ => (env, .error .conflict)

/-- `schemas.CompletionAdminCreate` as it reaches the handler. -/
structure CompletionAdminCreatePayload where
  taskId : Nat
  variantId : Option Nat
  count : Nat
  status : Option CompletionStatus
  memberNote : Option String
  adminNote : Option String
deriving DecidableEq, Repr

/-- The first group-admin scope check of
`completions.create_user_completion`: unlike the review check, a member
without a team is in scope. -/
def adminCreateMemberAuthz (actor : User) (member : User) :
    Except HttpError Unit :=
  if actor.role = RoleEnum.groupAdmin then
    if actor.managedTeamIds = [] then .error .forbidden
    else
      match member.teamId with
      | some tid =>
          if tid ∈ actor.managedTeamIds then .ok () else .error .forbidden
      | none => .ok ()
  else .ok ()

/-- The second group-admin scope check of
`completions.create_user_completion`: a global task is always in scope. -/
def adminCreateTaskAuthz (actor : User) (task : Task) :
    Except HttpError Unit :=
  if actor.role = RoleEnum.groupAdmin then
    match task.teamId with
    | some tid =>
        if tid ∈ actor.managedTeamIds then .ok () else .error .forbidden
    | none => .ok ()
  else .ok ()

/-- The variant validation of `completions.create_user_completion`: a
provided variant id must resolve and belong to the task. -/
def adminCreateVariantCheck (env : Env) (task : Task)
    (variantId : Option Nat) : Except HttpError (Option TaskVariant) :=
  match variantId with
  | none => .ok none
  | some vid =>
    match findVariant env vid with
    | none => .error .badRequest
    | some v =>
        if v.taskId = task.id then .ok (some v)
        else .error .badRequest

/-- The row `completions.create_user_completion` builds once its guards
have passed: stamped with the actor as reviewer, `submitted_at =
reviewed_at = now`; an approved row is awarded the variant/task price
times the count, any other row 0. -/
def adminCreatedCompletion (task : Task) (member : User) (actor : User)
    (payload : CompletionAdminCreatePayload)
    (variantOpt : Option TaskVariant) (now : Time) (newId : Nat) :
    Completion :=
  let base : Completion :=
    { id := newId, memberId := member.id, taskId := task.id,
      variantId := payload.variantId,
      status := payload.status.getD CompletionStatus.approved,
      submittedAt := now, reviewedAt := some now,
      reviewerId := some actor.id,
      memberNote := payload.memberNote,
      adminNote := payload.adminNote,
      pointsAwarded := 0, count := payload.count }
  if payload.status.getD CompletionStatus.approved =
      CompletionStatus.approved then
    { base with
      pointsAwarded :=
        (match variantOpt with
         | some v => v.points
         | none => task.pointsPerCompletion) * (payload.count : Rat) }
  else base

/-- `completions.create_user_completion`.  `status or APPROVED` maps a
missing status to approved; a pending status is rejected; the committed
row is `adminCreatedCompletion` together with a notification to the
member. -/
def createUserCompletion (env : Env) (actor : User) (userId : Nat)
    (payload : CompletionAdminCreatePayload) (now : Time) (newId : Nat) :
    Env × Except HttpError (Completion × Notification) :=
  match findUser env userId with
  | none => (env, .error .notFound)
  | some member =>
    match adminCreateMemberAuthz actor member with
    | .error e => (env, .error e)
    | .ok _ =>
      match findTask env payload.taskId with
      | none => (env, .error .notFound)
      | some task =>
        match adminCreateTaskAuthz actor task with
        | .error e => (env, .error e)
        | .ok _ =>
          if payload.status.getD CompletionStatus.approved =
              CompletionStatus.pending then
            (env, .error .badRequest)
          else
            match adminCreateVariantCheck env task payload.variantId with
            | .error e => (env, .error e)
            | .ok variantOpt =>
              ({ env with
                  completions :=
                    env.completions ++
                      [adminCreatedCompletion task member actor payload
                        variantOpt now newId] },
               .ok (adminCreatedCompletion task member actor payload
                      variantOpt now newId,
                    { userId := member.id, senderId := some actor.id }))

/-- `schemas.CompletionAdminUpdate` as it reaches the handler. -/
structure CompletionAdminUpdatePayload where
  count : Option Nat
  status : Option CompletionStatus
  adminNote : Option String
deriving DecidableEq, Repr

/-- The group-admin scope check of `completions.update_user_completion`
(also the one of `delete_user_completion`): a group admin needs a
non-empty managed set containing the member's team. -/
def adminUpdateAuthz (env : Env) (actor : User) (completion : Completion) :
    Except HttpError Unit :=
  if actor.role = RoleEnum.groupAdmin then
    if actor.managedTeamIds = [] then .error .forbidden
    else
      match (findUser env completion.memberId).bind (fun m => m.teamId) with
      | some tid =>
          if tid ∈ actor.managedTeamIds then .ok () else .error .forbidden
      | none => .error .forbidden
  else .ok ()

/-- The row mutation of `completions.update_user_completion` once the
guards have passed: apply count, then status (restamping reviewer and
`reviewed_at` only when the provided status differs from the current
one), then admin note; recompute or zero the award only when count was
provided or the status changed. -/
def adminUpdateApply (env : Env) (actor : User) (completion : Completion)
    (payload : CompletionAdminUpdatePayload) (now : Time) : Completion :=
  let c1 : Completion :=
    match payload.count with
    | some k => { completion with count := k }
    | none => completion
  let statusChanged : Bool :=
    match payload.status with
    | some s => decide (completion.status ≠ s)
    | none => false
  let c2 : Completion :=
    match payload.status with
    | some s =>
        if completion.status ≠ s then
          { c1 with
            status := s
            reviewedAt := some now
            reviewerId := some actor.id }
        else c1
    | none => c1
  let c3 : Completion :=
    match payload.adminNote with
    | some n => { c2 with adminNote := some n }
    | none => c2
  if payload.count ≠ none ∨ statusChanged = true then
    match findTask env c3.taskId with
    | some t =>
      if c3.status = CompletionStatus.approved then
        let ppc :=
          match c3.variantId.bind (findVariant env) with
          | some v => v.points
          | none => t.pointsPerCompletion
        { c3 with pointsAwarded := ppc * (c3.count : Rat) }
      else { c3 with pointsAwarded := 0 }
    | none => { c3 with pointsAwarded := 0 }
  else c3

/-- `completions.update_user_completion`.  An all-`None` payload returns
the row untouched; a pending target is rejected; otherwise the mutation of
`adminUpdateApply` is committed. -/
def updateUserCompletion (env : Env) (actor : User) (userId : Nat)
    (completionId : Nat) (payload : CompletionAdminUpdatePayload)
    (now : Time) : Env × Except HttpError Completion :=
  match env.completions.find?
      (fun c => c.id = completionId ∧ c.memberId = userId) with
  | none => (env, .error .notFound)
  | some completion =>
    match adminUpdateAuthz env actor completion with
    | .error e => (env, .error e)
    | .ok _ =>
      if payload.count = none ∧ payload.status = none ∧
          payload.adminNote = none then
        (env, .ok completion)
      else if payload.status = some CompletionStatus.pending then
        (env, .error .badRequest)
      else
        ({ env with
            completions :=
              env.completions.map
                (fun c =>
                  if c.id = completionId then
                    adminUpdateApply env actor completion payload now
                  else c) },
         .ok (adminUpdateApply env actor completion payload now))

/-- A `stat_category_components` row, restricted to what
`leaderboard.stats_leaderboard` reads. -/
structure StatCategoryComponent where
  taskId : Nat
  metric : StatMetricEnum
  weight : Rat
deriving DecidableEq, Repr

/-- SQL aggregate `sum(points_awarded) ... where status = approved group by
(member_id, task_id)`, read off for one (member, task) pair; a missing
group row and an empty sum are both `0`, matching the handler's
`metric_value = 0.0` default. -/
def approvedPointsSum (completions : List Completion) (memberId : Nat)
    (taskId : Nat) : Rat :=
  ((completions.filter (fun c =>
      c.memberId = memberId ∧ c.taskId = taskId ∧
      c.status = CompletionStatus.approved)).map (fun c => c.pointsAwarded)).sum

/-- SQL aggregate `sum(count)` over the same group. -/
def approvedCountSum (completions : List Completion) (memberId : Nat)
    (taskId : Nat) : Rat :=
  ((completions.filter (fun c =>
      c.memberId = memberId ∧ c.taskId = taskId ∧
      c.status = CompletionStatus.approved)).map (fun c => (c.count : Rat))).sum

/-- The metric value of one component for one member
(`metrics["points"]` vs `metrics["count"]` in the handler). -/
def metricValue (completions : List Completion) (memberId : Nat)
    (component : StatCategoryComponent) : Rat :=
  match component.metric with
  | .points => approvedPointsSum completions memberId component.taskId
  | .completions => approvedCountSum completions memberId component.taskId

/-- `total_score` accumulated over the category's components. -/
def memberStatScore (completions : List Completion)
    (components : List StatCategoryComponent) (memberId : Nat) : Rat :=
  (components.map (fun k => k.weight * metricValue completions memberId k)).sum

/-- `raw_value` accumulated over the category's components. -/
def memberStatRaw (completions : List Completion)
    (components : List StatCategoryComponent) (memberId : Nat) : Rat :=
  (components.map (fun k => metricValue completions memberId k)).sum

/-- The members appearing in `completion_rows`: at least one approved
completion on one of the category's tasks. -/
def statCandidateMembers (completions : List Completion)
    (components : List StatCategoryComponent) : List Nat :=
  ((completions.filter (fun c =>
      c.status = CompletionStatus.approved ∧
      components.any (fun k => decide (k.taskId = c.taskId)))).map
    (fun c => c.memberId)).dedup

/-- One entry of the members-scope stats leaderboard before sorting. -/
structure StatEntry where
  memberId : Nat
  score : Rat
  raw : Rat
deriving DecidableEq, Repr

/-- `scores_by_member` of `leaderboard.stats_leaderboard`: a candidate
member is kept when they exist in the users table and
`raw_value != 0 or total_score != 0`. -/
def statMemberEntries (env : Env)
    (components : List StatCategoryComponent) : List StatEntry :=
  ((statCandidateMembers env.completions components).filter (fun m =>
      (findUser env m).isSome ∧
      (memberStatRaw env.completions components m ≠ 0 ∨
       memberStatScore env.completions components m ≠ 0))).map
    (fun m =>
      { memberId := m,
        score := memberStatScore env.completions components m,
        raw := memberStatRaw env.completions components m })

/-- Members scope of `leaderboard.stats_leaderboard`: stable descending
sort by score, truncated to `limit`. -/
def statsLeaderboardMembers (env : Env)
    (components : List StatCategoryComponent) (limit : Nat) : List StatEntry :=
  ((statMemberEntries env components).mergeSort
    (fun a b => decide (b.score ≤ a.score))).take limit

/-- A member's total approved `points_awarded`
(the per-member `score` of the grouped subquery in
`users.read_current_user`). -/
def approvedTotal (completions : List Completion) (memberId : Nat) : Rat :=
  ((completions.filter (fun c =>
      c.memberId = memberId ∧
      c.status = CompletionStatus.approved)).map (fun c => c.pointsAwarded)).sum

/-- The distinct members having at least one approved completion — the
groups of the `member_scores` subquery. -/
def approvedMembers (completions : List Completion) : List Nat :=
  ((completions.filter (fun c =>
      c.status = CompletionStatus.approved)).map (fun c => c.memberId)).dedup

/-- The `member_scores` grouped subquery of `users.read_current_user`: one
row per member having at least one approved completion. -/
def memberScoreRows (completions : List Completion) : List (Nat × Rat) :=
  (approvedMembers completions).map (fun m => (m, approvedTotal completions m))

/-- The member rank of `users.read_current_user`: `None` when the member
has no row in the grouped subquery, else
`1 + count of rows with strictly greater score`. -/
def memberRank (completions : List Completion) (memberId : Nat) : Option Nat :=
  match (memberScoreRows completions).find? (fun r => r.1 = memberId) with
  | none => none
  | some row =>
      some (((memberScoreRows completions).filter
        (fun r => row.2 < r.2)).length + 1)

/-- The `team_scores` per-team total: the approved `points_awarded` summed
over completions whose member belongs to the team (inner join
Team–User, outer join to approved completions, `coalesce(sum, 0)`). -/
def teamApprovedTotal (env : Env) (teamId : Nat) : Rat :=
  ((env.completions.filter (fun c =>
      c.status = CompletionStatus.approved ∧
      env.users.any (fun u =>
        decide (u.id = c.memberId ∧ u.teamId = some teamId)))).map
    (fun c => c.pointsAwarded)).sum

/-- The teams having at least one member — the inner Team–User join of
the `team_scores` subquery. -/
def teamsWithMember (env : Env) : List Nat :=
  env.teamIds.filter (fun tid =>
    env.users.any (fun u => decide (u.teamId = some tid)))

/-- The `team_scores` grouped subquery: one row per team having at least
one member. -/
def teamScoreRows (env : Env) : List (Nat × Rat) :=
  (teamsWithMember env).map (fun tid => (tid, teamApprovedTotal env tid))

/-- The team rank of `users.read_current_user`. -/
def teamRank (env : Env) (teamId : Nat) : Option Nat :=
  match (teamScoreRows env).find? (fun r => r.1 = teamId) with
  | none => none
  | some row =>
      some (((teamScoreRows env).filter (fun r => row.2 < r.2)).length + 1)

/-- Refinement counterpart for claim C8, written from the claim's words:
the rank is `1 + the number of members whose total approved points_awarded
is strictly greater than the member's own total`, with members ranging
over the whole users table. -/
def specMemberRank (env : Env) (memberId : Nat) : Nat :=
  (env.users.filter (fun u =>
      approvedTotal env.completions memberId <
        approvedTotal env.completions u.id)).length + 1

/-- The spec's points invariant for a single completion row:
`points_awarded = 0` off the approved status, and the variant/task price
times `count` on it. -/
def pointsInvariant (env : Env) (c : Completion) : Prop :=
  (c.status ≠ CompletionStatus.approved → c.pointsAwarded = 0) ∧
  (c.status = CompletionStatus.approved →
    ∀ t, findTask env c.taskId = some t →
      c.pointsAwarded = perUnitPoints env t c * (c.count : Rat))

/-- The points invariant over every row of the ledger. -/
def envInvariant (env : Env) : Prop :=
  ∀ c ∈ env.completions, pointsInvariant env c

/-- One successful public operation on the ledger: Submit, AdminCreate,
Review or AdminUpdate. -/
inductive Step : Env → Env → Prop where
  | submit (env : Env) (user : User) (taskId : Nat) (payloadCount : Nat)
      (memberNote : Option String) (now : Time) (newId : Nat) (env1 : Env)
      (c : Completion)
      (h : submitCompletion env user taskId payloadCount memberNote now newId
            = (env1, Except.ok c)) : Step env env1
  | adminCreate (env : Env) (actor : User) (userId : Nat)
      (payload : CompletionAdminCreatePayload) (now : Time) (newId : Nat)
      (env1 : Env) (r : Completion × Notification)
      (h : createUserCompletion env actor userId payload now newId
            = (env1, Except.ok r)) : Step env env1
  | review (env : Env) (reviewer : User) (completionId : Nat)
      (payload : CompletionReviewPayload) (now : Time) (env1 : Env)
      (r : Completion × Notification)
      (h : reviewCompletion env reviewer completionId payload now
            = (env1, Except.ok r)) : Step env env1
  | adminUpdate (env : Env) (actor : User) (userId : Nat)
      (completionId : Nat) (payload : CompletionAdminUpdatePayload)
      (now : Time) (env1 : Env) (c : Completion)
      (h : updateUserCompletion env actor userId completionId payload now
            = (env1, Except.ok c)) : Step env env1

/-- The window calculator with a known nonzero period length. -/
theorem currentWindowStats_eq_of_delta (completions : List Completion)
    (task : Task) (memberId : Nat) (now : Time) (delta : Int)
    (hdelta : windowDelta task = some delta) (hne : delta ≠ 0) :
    currentWindowStats completions task memberId now =
      (let windowStart : Time :=
        if now < task.startTime then task.startTime
        else task.startTime + (Int.fdiv (now - task.startTime) delta) * delta
      (((completions.filter (fun c =>
          c.taskId = task.id ∧ c.memberId = memberId ∧
          c.status ≠ CompletionStatus.rejected ∧
          windowStart ≤ c.submittedAt ∧
          c.submittedAt < windowStart + delta)).map (fun c => c.count)).sum,
       some windowStart, some (windowStart + delta))) := by
  unfold currentWindowStats
  rw [hdelta]
  simp only [hne, if_false]

/-- Claim C2: for a task with a configured recurrence limit, the period
length is `period_count` hours/days/weeks for unit hour/day/week and
`period_count × 30` days for month; the current window starts at
`start_time + floor((now − start_time)/Δ) × Δ` (at `start_time` itself when
`now < start_time`) and ends one Δ later; and the reported usage is the sum
of `count` over the member's non-rejected completions of the task with
`submitted_at` in `[window_start, window_end)`. -/
theorem c2_window_and_usage (completions : List Completion) (task : Task)
    (memberId : Nat) (now : Time) (m : Nat) (u : TaskPeriodUnit) (k : Nat)
    (hm : task.maxPerPeriod = some m) (hu : task.periodUnit = some u)
    (hk : task.periodCount = some k) (hk1 : 1 ≤ k) :
    currentWindowStats completions task memberId now =
      (let delta : Int :=
        match u with
        | .hour => 3600 * (k : Int)
        | .day => 86400 * (k : Int)
        | .week => 7 * 86400 * (k : Int)
        | .month => 30 * 86400 * (k : Int)
      let windowStart : Time :=
        if now < task.startTime then task.startTime
        else task.startTime + (Int.fdiv (now - task.startTime) delta) * delta
      (((completions.filter (fun c =>
          c.taskId = task.id ∧ c.memberId = memberId ∧
          c.status ≠ CompletionStatus.rejected ∧
          windowStart ≤ c.submittedAt ∧
          c.submittedAt < windowStart + delta)).map (fun c => c.count)).sum,
       some windowStart, some (windowStart + delta))) := by
  have hk' : (1 : Int) ≤ (k : Int) := by exact_mod_cast hk1
  cases u
  case hour =>
    exact currentWindowStats_eq_of_delta completions task memberId now
      (3600 * (k : Int))
      (by unfold windowDelta; rw [hm, hu, hk]) (by omega)
  case day =>
    exact currentWindowStats_eq_of_delta completions task memberId now
      (86400 * (k : Int))
      (by unfold windowDelta; rw [hm, hu, hk]) (by omega)
  case week =>
    exact currentWindowStats_eq_of_delta completions task memberId now
      (7 * 86400 * (k : Int))
      (by unfold windowDelta; rw [hm, hu, hk]) (by omega)
  case month =>
    exact currentWindowStats_eq_of_delta completions task memberId now
      (30 * 86400 * (k : Int))
      (by unfold windowDelta; rw [hm, hu, hk]) (by omega)

/-- Witness for C2 at a concrete instance: a daily-limit task anchored at
time 0, queried at `now = 90000` (inside the second day window). -/
theorem c2_witness :
    currentWindowStats
      [{ id := 1, memberId := 7, taskId := 4, variantId := none,
         status := CompletionStatus.pending, submittedAt := 90500,
         reviewedAt := none, reviewerId := none, memberNote := none,
         adminNote := none, pointsAwarded := 0, count := 3 },
       { id := 2, memberId := 7, taskId := 4, variantId := none,
         status := CompletionStatus.approved, submittedAt := 100,
         reviewedAt := none, reviewerId := none, memberNote := none,
         adminNote := none, pointsAwarded := 5, count := 2 }]
      { id := 4, teamId := none, startTime := 0, endTime := none,
        pointsPerCompletion := 5, maxPerPeriod := some 10,
        periodUnit := some TaskPeriodUnit.day, periodCount := some 1,
        requiresApproval := false, isArchived := false }
      7 90000 = (3, some 86400, some 172800) := by
  have h := c2_window_and_usage
    [{ id := 1, memberId := 7, taskId := 4, variantId := none,
       status := CompletionStatus.pending, submittedAt := 90500,
       reviewedAt := none, reviewerId := none, memberNote := none,
       adminNote := none, pointsAwarded := 0, count := 3 },
     { id := 2, memberId := 7, taskId := 4, variantId := none,
       status := CompletionStatus.approved, submittedAt := 100,
       reviewedAt := none, reviewerId := none, memberNote := none,
       adminNote := none, pointsAwarded := 5, count := 2 }]
    { id := 4, teamId := none, startTime := 0, endTime := none,
      pointsPerCompletion := 5, maxPerPeriod := some 10,
      periodUnit := some TaskPeriodUnit.day, periodCount := some 1,
      requiresApproval := false, isArchived := false }
    7 90000 10 TaskPeriodUnit.day 1 rfl rfl rfl (by decide)
  rw [h]
  decide

/-- Any successful submission returns exactly the built row and appends it
to the ledger. -/
theorem submitCompletion_ok_char (env : Env) (user : User) (taskId : Nat)
    (payloadCount : Nat) (note : Option String) (now : Time) (newId : Nat)
    (env1 : Env) (c : Completion) (task : Task)
    (htask : findTask env taskId = some task)
    (h : submitCompletion env user taskId payloadCount note now newId
          = (env1, Except.ok c)) :
    c = submitBuiltCompletion user task note now newId
          (effectiveCount payloadCount) ∧
    env1 = { env with completions := env.completions ++ [c] } := by
  unfold submitCompletion at h
  rw [htask] at h
  dsimp only at h
  cases hacc : assertTaskAccess task user with
  | error e => rw [hacc] at h; exact Except.noConfusion (congrArg Prod.snd h)
  | ok a =>
    rw [hacc] at h
    cases hwin : assertTaskWindow task now with
    | error e => rw [hwin] at h; exact Except.noConfusion (congrArg Prod.snd h)
    | ok b =>
      rw [hwin] at h
      have accept :
          submitAccept env user task note now newId (effectiveCount payloadCount)
            = (env1, Except.ok c) →
          c = submitBuiltCompletion user task note now newId
                (effectiveCount payloadCount) ∧
          env1 = { env with completions := env.completions ++ [c] } := by
        intro ha
        have h2 : Except.ok (submitBuiltCompletion user task note now newId
            (effectiveCount payloadCount)) = Except.ok c := congrArg Prod.snd ha
        have hc := Except.ok.inj h2
        have h1 : ({ env with completions := env.completions ++
            [submitBuiltCompletion user task note now newId
              (effectiveCount payloadCount)] } : Env) = env1 := congrArg Prod.fst ha
        refine ⟨hc.symm, ?_⟩
        rw [← h1, hc]
      cases hrem : (calculateProgress env.completions task user.id now).remaining with
      | none =>
        rw [hrem] at h
        exact accept h
      | some r =>
        rw [hrem] at h
        dsimp only at h
        by_cases hlt : r < effectiveCount payloadCount
        · rw [if_pos hlt] at h
          exact Except.noConfusion (congrArg Prod.snd h)
        · rw [if_neg hlt] at h
          exact accept h

/-- Claim C4: a successful Submit creates a completion whose status is
pending exactly when the task requires approval; it never references a
variant, and when immediately approved its `points_awarded` is the
per-unit price (trivially the task's, as no variant is referenced) times
the count, and `reviewed_at` is the submission time. -/
theorem c4_submit_status_and_points (env : Env) (user : User) (taskId : Nat)
    (payloadCount : Nat) (note : Option String) (now : Time) (newId : Nat)
    (env1 : Env) (c : Completion) (task : Task)
    (htask : findTask env taskId = some task)
    (h : submitCompletion env user taskId payloadCount note now newId
          = (env1, Except.ok c)) :
    (c.status = CompletionStatus.pending ↔ task.requiresApproval = true) ∧
    c.variantId = none ∧
    (c.status = CompletionStatus.approved →
      c.pointsAwarded = perUnitPoints env task c * (c.count : Rat) ∧
      c.reviewedAt = some now) := by
  obtain ⟨hc, henv⟩ :=
    submitCompletion_ok_char env user taskId payloadCount note now newId
      env1 c task htask h
  subst hc
  by_cases hreq : task.requiresApproval = true
  · constructor
    · simp [submitBuiltCompletion, submitStatusTarget, hreq]
    · constructor
      · rfl
      · intro happ
        simp [submitBuiltCompletion, submitStatusTarget, hreq] at happ
  · have hreq' : task.requiresApproval = false := by
      cases hb : task.requiresApproval
      · rfl
      · exact absurd hb hreq
    constructor
    · simp [submitBuiltCompletion, submitStatusTarget, hreq']
    · constructor
      · rfl
      · intro _
        constructor
        · simp [submitBuiltCompletion, submitStatusTarget, hreq',
            perUnitPoints, effectiveCount]
        · simp [submitBuiltCompletion, submitStatusTarget, hreq']

/-- A sample auto-approve task for concrete witnesses. -/
def wTask : Task :=
  { id := 4, teamId := none, startTime := 0, endTime := none,
    pointsPerCompletion := 5, maxPerPeriod := none, periodUnit := none,
    periodCount := none, requiresApproval := false, isArchived := false }

/-- A sample member for concrete witnesses. -/
def wUser : User :=
  { id := 7, role := RoleEnum.member, teamId := none, managedTeamIds := [] }

/-- A sample store with one task, one member and an empty ledger. -/
def wEnv : Env :=
  { teamIds := [], tasks := [wTask], variants := [], users := [wUser],
    completions := [] }

/-- Witness for C4: submitting count 3 to the sample task yields an
immediately approved completion worth 15 points. -/
theorem c4_witness :
    findTask wEnv 4 = some wTask ∧
    submitCompletion wEnv wUser 4 3 none 1000 1 =
      ({ wEnv with
          completions := [submitBuiltCompletion wUser wTask none 1000 1 3] },
       Except.ok (submitBuiltCompletion wUser wTask none 1000 1 3)) ∧
    (((submitBuiltCompletion wUser wTask none 1000 1 3).status =
        CompletionStatus.pending ↔ wTask.requiresApproval = true) ∧
     (submitBuiltCompletion wUser wTask none 1000 1 3).variantId = none ∧
     ((submitBuiltCompletion wUser wTask none 1000 1 3).status =
        CompletionStatus.approved →
      (submitBuiltCompletion wUser wTask none 1000 1 3).pointsAwarded =
        perUnitPoints wEnv wTask (submitBuiltCompletion wUser wTask none 1000 1 3) *
          (((submitBuiltCompletion wUser wTask none 1000 1 3).count : Nat) : Rat) ∧
      (submitBuiltCompletion wUser wTask none 1000 1 3).reviewedAt = some 1000)) := by
  have h1 : findTask wEnv 4 = some wTask := by decide
  have h2 : submitCompletion wEnv wUser 4 3 none 1000 1 =
      ({ wEnv with
          completions := [submitBuiltCompletion wUser wTask none 1000 1 3] },
       Except.ok (submitBuiltCompletion wUser wTask none 1000 1 3)) := by rfl
  exact ⟨h1, h2,
    c4_submit_status_and_points wEnv wUser 4 3 none 1000 1 _ _ wTask h1 h2⟩

/-- Scope check failure branch of the access guard. -/
theorem assertTaskAccess_forbidden (task : Task) (user : User) (tid : Nat)
    (h1 : task.teamId = some tid) (h2 : user.role ≠ RoleEnum.admin)
    (h3 : user.teamId ≠ some tid) :
    assertTaskAccess task user = Except.error HttpError.forbidden := by
  unfold assertTaskAccess
  rw [h1]
  dsimp only
  rw [if_pos ⟨h2, h3⟩]

/-- Archived branch of the access guard, reached when the scope check
passes. -/
theorem assertTaskAccess_gone (task : Task) (user : User)
    (hscope : task.teamId = none ∨ user.role = RoleEnum.admin ∨
      user.teamId = task.teamId)
    (harch : task.isArchived = true) :
    assertTaskAccess task user = Except.error HttpError.gone := by
  unfold assertTaskAccess
  cases htid : task.teamId with
  | none => simp [harch]
  | some tid =>
    have hcond : ¬(user.role ≠ RoleEnum.admin ∧ user.teamId ≠ some tid) := by
      rcases hscope with h | h | h
      · rw [htid] at h; exact absurd h (by simp)
      · intro hx; exact hx.1 h
      · intro hx; rw [htid] at h; exact hx.2 h
    dsimp only
    rw [if_neg hcond, if_pos harch]

/-- The access guard passes when the scope check passes and the task is
not archived. -/
theorem assertTaskAccess_ok (task : Task) (user : User)
    (hscope : task.teamId = none ∨ user.role = RoleEnum.admin ∨
      user.teamId = task.teamId)
    (harch : task.isArchived = false) :
    assertTaskAccess task user = Except.ok () := by
  unfold assertTaskAccess
  cases htid : task.teamId with
  | none => simp [harch]
  | some tid =>
    have hcond : ¬(user.role ≠ RoleEnum.admin ∧ user.teamId ≠ some tid) := by
      rcases hscope with h | h | h
      · rw [htid] at h; exact absurd h (by simp)
      · intro hx; exact hx.1 h
      · intro hx; rw [htid] at h; exact hx.2 h
    dsimp only
    rw [if_neg hcond, if_neg (by rw [harch]; exact Bool.false_ne_true)]

/-- The activity-window guard rejects a not-yet-started or expired task. -/
theorem assertTaskWindow_err (task : Task) (now : Time)
    (h : now < task.startTime ∨ ∃ e, task.endTime = some e ∧ e < now) :
    assertTaskWindow task now = Except.error HttpError.badRequest := by
  unfold assertTaskWindow
  rcases h with h | ⟨e, he, hlt⟩
  · rw [if_pos h]
  · by_cases hs : now < task.startTime
    · rw [if_pos hs]
    · rw [if_neg hs, he]
      dsimp only
      rw [if_pos hlt]

/-- Claim C9: Submit fails with NotFound on a missing task, Forbidden on a
task bound to a foreign team (submitter not a global admin), Gone on an
archived task once in scope, and BadRequest when the task has not started
or has ended; each failure returns the store unchanged, so no completion
is recorded. -/
theorem c9_submit_failures (env : Env) (user : User) (taskId : Nat)
    (payloadCount : Nat) (note : Option String) (now : Time) (newId : Nat) :
    (findTask env taskId = none →
      submitCompletion env user taskId payloadCount note now newId =
        (env, Except.error HttpError.notFound)) ∧
    (∀ task tid, findTask env taskId = some task → task.teamId = some tid →
      user.role ≠ RoleEnum.admin → user.teamId ≠ some tid →
      submitCompletion env user taskId payloadCount note now newId =
        (env, Except.error HttpError.forbidden)) ∧
    (∀ task, findTask env taskId = some task →
      (task.teamId = none ∨ user.role = RoleEnum.admin ∨
        user.teamId = task.teamId) →
      task.isArchived = true →
      submitCompletion env user taskId payloadCount note now newId =
        (env, Except.error HttpError.gone)) ∧
    (∀ task, findTask env taskId = some task →
      (task.teamId = none ∨ user.role = RoleEnum.admin ∨
        user.teamId = task.teamId) →
      task.isArchived = false →
      (now < task.startTime ∨ ∃ e, task.endTime = some e ∧ e < now) →
      submitCompletion env user taskId payloadCount note now newId =
        (env, Except.error HttpError.badRequest)) := by
  refine ⟨?_, ?_, ?_, ?_⟩
  · intro hnone
    unfold submitCompletion
    rw [hnone]
  · intro task tid htask hteam hrole huser
    unfold submitCompletion
    rw [htask]
    dsimp only
    rw [assertTaskAccess_forbidden task user tid hteam hrole huser]
  · intro task htask hscope harch
    unfold submitCompletion
    rw [htask]
    dsimp only
    rw [assertTaskAccess_gone task user hscope harch]
  · intro task htask hscope harch hwin
    unfold submitCompletion
    rw [htask]
    dsimp only
    rw [assertTaskAccess_ok task user hscope harch]
    dsimp only
    rw [assertTaskWindow_err task now hwin]

/-- A team-bound task, an archived task and an expired task for the C9
witness. -/
def w9TaskTeam : Task :=
  { id := 11, teamId := some 2, startTime := 0, endTime := none,
    pointsPerCompletion := 1, maxPerPeriod := none, periodUnit := none,
    periodCount := none, requiresApproval := false, isArchived := false }

/-- Archived sample task. -/
def w9TaskArch : Task :=
  { id := 12, teamId := none, startTime := 0, endTime := none,
    pointsPerCompletion := 1, maxPerPeriod := none, periodUnit := none,
    periodCount := none, requiresApproval := false, isArchived := true }

/-- Expired sample task (ended at time 10). -/
def w9TaskExp : Task :=
  { id := 13, teamId := none, startTime := 0, endTime := some 10,
    pointsPerCompletion := 1, maxPerPeriod := none, periodUnit := none,
    periodCount := none, requiresApproval := false, isArchived := false }

/-- Sample store for the C9 witness. -/
def w9Env : Env :=
  { teamIds := [2], tasks := [w9TaskTeam, w9TaskArch, w9TaskExp],
    variants := [], users := [wUser], completions := [] }

/-- Witness for C9 at time 50: missing task 99, foreign-team task 11,
archived task 12 and expired task 13 fail with the four error kinds and
leave the store unchanged. -/
theorem c9_witness :
    submitCompletion w9Env wUser 99 1 none 50 1 =
      (w9Env, Except.error HttpError.notFound) ∧
    submitCompletion w9Env wUser 11 1 none 50 1 =
      (w9Env, Except.error HttpError.forbidden) ∧
    submitCompletion w9Env wUser 12 1 none 50 1 =
      (w9Env, Except.error HttpError.gone) ∧
    submitCompletion w9Env wUser 13 1 none 50 1 =
      (w9Env, Except.error HttpError.badRequest) := by
  refine ⟨?_, ?_, ?_, ?_⟩
  · exact (c9_submit_failures w9Env wUser 99 1 none 50 1).1 (by decide)
  · exact (c9_submit_failures w9Env wUser 11 1 none 50 1).2.1 w9TaskTeam 2
      (by decide) (by decide) (by decide) (by decide)
  · exact (c9_submit_failures w9Env wUser 12 1 none 50 1).2.2.1 w9TaskArch
      (by decide) (Or.inl (by decide)) (by decide)
  · exact (c9_submit_failures w9Env wUser 13 1 none 50 1).2.2.2 w9TaskExp
      (by decide) (Or.inl (by decide)) (by decide)
      (Or.inr ⟨10, by decide, by decide⟩)


/-- Claim C7: each entry of the members-scope weighted stats leaderboard
carries the score `Σ weight × metric value` over the category's
components (metric value = the member's approved points sum or approved
count sum for the component's task), and a member appears only if some
metric value is nonzero or the total score is nonzero. -/
theorem c7_stats_leaderboard (env : Env)
    (components : List StatCategoryComponent) (limit : Nat) (e : StatEntry)
    (h : e ∈ statsLeaderboardMembers env components limit) :
    e.score =
      (components.map
        (fun k => k.weight * metricValue env.completions e.memberId k)).sum ∧
    ((∃ k ∈ components, metricValue env.completions e.memberId k ≠ 0) ∨
      e.score ≠ 0) := by
  have h1 : e ∈ (statMemberEntries env components).mergeSort
      (fun a b => decide (b.score ≤ a.score)) :=
    List.take_subset _ _ h
  have h2 : e ∈ statMemberEntries env components :=
    (List.mergeSort_perm (statMemberEntries env components) _).mem_iff.mp h1
  unfold statMemberEntries at h2
  obtain ⟨m, hm, he⟩ := List.mem_map.mp h2
  obtain ⟨hcand, hcond⟩ := List.mem_filter.mp hm
  rw [decide_eq_true_iff] at hcond
  obtain ⟨husr, hnz⟩ := hcond
  subst he
  refine ⟨rfl, ?_⟩
  rcases hnz with hraw | hscore
  · left
    by_contra hall
    push_neg at hall
    apply hraw
    unfold memberStatRaw
    apply List.sum_eq_zero
    intro x hx
    obtain ⟨k, hk, hxk⟩ := List.mem_map.mp hx
    rw [← hxk]
    exact hall k hk
  · right
    exact hscore

/-- A two-component category (task 4 by points, weight 1; task 8 by
completions, weight 2) for the C7 witness. -/
def w7Components : List StatCategoryComponent :=
  [{ taskId := 4, metric := StatMetricEnum.points, weight := 1 },
   { taskId := 8, metric := StatMetricEnum.completions, weight := 2 }]

/-- Store for the C7 witness: member 7 has one approved completion of
task 4 worth 10 points. -/
def w7Env : Env :=
  { teamIds := [], tasks := [wTask], variants := [], users := [wUser],
    completions :=
      [{ id := 1, memberId := 7, taskId := 4, variantId := none,
         status := CompletionStatus.approved, submittedAt := 100,
         reviewedAt := some 100, reviewerId := none, memberNote := none,
         adminNote := none, pointsAwarded := 10, count := 2 }] }

/-- Witness for C7: the single leaderboard entry for member 7 scores
1 × 10 + 2 × 0 = 10 and satisfies the nonzero condition. -/
theorem c7_witness :
    ({ memberId := 7, score := 10, raw := 10 } : StatEntry) ∈
      statsLeaderboardMembers w7Env w7Components 100 ∧
    (10 : Rat) =
      (w7Components.map
        (fun k => k.weight * metricValue w7Env.completions 7 k)).sum ∧
    ((∃ k ∈ w7Components, metricValue w7Env.completions 7 k ≠ 0) ∨
      (10 : Rat) ≠ 0) := by
  have hentries : statMemberEntries w7Env w7Components =
      [{ memberId := 7, score := 10, raw := 10 }] := by
    norm_num [statMemberEntries, statCandidateMembers, findUser,
      memberStatRaw, memberStatScore, metricValue, approvedPointsSum,
      approvedCountSum, w7Env, w7Components, wUser, wTask, List.dedup,
      List.filter, List.sum, List.pwFilter]
  have hmem : ({ memberId := 7, score := 10, raw := 10 } : StatEntry) ∈
      statsLeaderboardMembers w7Env w7Components 100 := by
    unfold statsLeaderboardMembers
    rw [hentries, List.mergeSort_singleton]
    decide
  have h := c7_stats_leaderboard w7Env w7Components 100
    { memberId := 7, score := 10, raw := 10 } hmem
  exact ⟨hmem, h.1, h.2⟩


/-- The member rank, rewritten over the distinct approved members. -/
theorem memberRank_eq (completions : List Completion) (me : Nat) (r : Nat)
    (h : memberRank completions me = some r) :
    r = ((approvedMembers completions).filter
          (fun m => approvedTotal completions me < approvedTotal completions m)).length
        + 1 := by
  unfold memberRank at h
  cases hfind : (memberScoreRows completions).find? (fun row => row.1 = me) with
  | none => rw [hfind] at h; exact Option.noConfusion h
  | some row =>
    rw [hfind] at h
    dsimp only at h
    have hr := Option.some.inj h
    have hmem := List.mem_of_find?_eq_some hfind
    unfold memberScoreRows at hmem
    obtain ⟨m0, hm0, hrow⟩ := List.mem_map.mp hmem
    have hp := List.find?_some hfind
    rw [decide_eq_true_iff] at hp
    have hm0me : m0 = me := by rw [← hrow] at hp; exact hp
    subst hm0me
    have hrow2 : row.2 = approvedTotal completions m0 := by rw [← hrow]
    rw [← hr]
    unfold memberScoreRows
    rw [List.filter_map, List.length_map]
    congr 1
    apply congrArg List.length
    apply List.filter_congr
    intro m hm2
    simp [Function.comp, hrow2]

/-- The team rank, rewritten over the teams having members. -/
theorem teamRank_eq (env : Env) (tid : Nat) (r : Nat)
    (h : teamRank env tid = some r) :
    r = ((teamsWithMember env).filter
          (fun t2 => teamApprovedTotal env tid < teamApprovedTotal env t2)).length
        + 1 := by
  unfold teamRank at h
  cases hfind : (teamScoreRows env).find? (fun row => row.1 = tid) with
  | none => rw [hfind] at h; exact Option.noConfusion h
  | some row =>
    rw [hfind] at h
    dsimp only at h
    have hr := Option.some.inj h
    have hmem := List.mem_of_find?_eq_some hfind
    unfold teamScoreRows at hmem
    obtain ⟨t0, ht0, hrow⟩ := List.mem_map.mp hmem
    have hp := List.find?_some hfind
    rw [decide_eq_true_iff] at hp
    have ht0tid : t0 = tid := by rw [← hrow] at hp; exact hp
    subst ht0tid
    have hrow2 : row.2 = teamApprovedTotal env t0 := by rw [← hrow]
    rw [← hr]
    unfold teamScoreRows
    rw [List.filter_map, List.length_map]
    congr 1
    apply congrArg List.length
    apply List.filter_congr
    intro t2 ht2
    simp [Function.comp, hrow2]

/-- A second member with no completions for the C8 counterexample. -/
def c8User2 : User :=
  { id := 8, role := RoleEnum.member, teamId := none, managedTeamIds := [] }

/-- A single approved completion with a negative award (negative
`points_per_completion` is accepted by the schema). -/
def c8Comps : List Completion :=
  [{ id := 1, memberId := 7, taskId := 4, variantId := none,
     status := CompletionStatus.approved, submittedAt := 0,
     reviewedAt := none, reviewerId := none, memberNote := none,
     adminNote := none, pointsAwarded := -1, count := 1 }]

/-- Store for the C8 counterexample: member 7 totals −1, member 8 has no
completions (total 0). -/
def c8Env : Env :=
  { teamIds := [], tasks := [wTask], variants := [], users := [wUser, c8User2],
    completions := c8Comps }

/-- Counterexample to C8 as stated: the code ranks member 7 first (the
grouped score subquery contains only members with an approved
completion), while the claim's formula — 1 + the number of members with
strictly greater total — ranks them second, because member 8 with no
completions has total 0 > −1. -/
theorem c8_counterexample :
    memberRank c8Env.completions 7 = some 1 ∧
    specMemberRank c8Env 7 = 2 ∧
    memberRank c8Env.completions 7 ≠ some (specMemberRank c8Env 7) := by
  have h1 : memberRank c8Env.completions 7 = some 1 := by
    norm_num [memberRank, memberScoreRows, approvedMembers, approvedTotal,
      c8Env, c8Comps, List.dedup, List.pwFilter]
  have h2 : specMemberRank c8Env 7 = 2 := by
    norm_num [specMemberRank, approvedTotal, c8Env, c8Comps, wUser, c8User2]
  refine ⟨h1, h2, ?_⟩
  rw [h1, h2]
  decide

/-- Claim C8 (amended): in the profile rank computation a member's rank is
1 + the number of members *having at least one approved completion* whose
total approved points is strictly greater (the member themselves gets a
rank only when they have such a row); tied members receive the same rank;
the team rank is the analogue over teams having at least one member. -/
theorem c8_rank_amended :
    (∀ (completions : List Completion) (me r : Nat),
      memberRank completions me = some r →
      r = ((approvedMembers completions).filter
            (fun m => approvedTotal completions me <
              approvedTotal completions m)).length + 1) ∧
    (∀ (completions : List Completion) (a b ra rb : Nat),
      memberRank completions a = some ra →
      memberRank completions b = some rb →
      approvedTotal completions a = approvedTotal completions b →
      ra = rb) ∧
    (∀ (env : Env) (tid r : Nat),
      teamRank env tid = some r →
      r = ((teamsWithMember env).filter
            (fun t2 => teamApprovedTotal env tid <
              teamApprovedTotal env t2)).length + 1) := by
  refine ⟨memberRank_eq, ?_, teamRank_eq⟩
  intro completions a b ra rb ha hb htot
  rw [memberRank_eq completions a ra ha, memberRank_eq completions b rb hb,
    htot]

/-- Two members tied at 3 points and a one-team store for the C8
witness. -/
def c8TieComps : List Completion :=
  [{ id := 1, memberId := 7, taskId := 4, variantId := none,
     status := CompletionStatus.approved, submittedAt := 0,
     reviewedAt := none, reviewerId := none, memberNote := none,
     adminNote := none, pointsAwarded := 3, count := 1 },
   { id := 2, memberId := 8, taskId := 4, variantId := none,
     status := CompletionStatus.approved, submittedAt := 0,
     reviewedAt := none, reviewerId := none, memberNote := none,
     adminNote := none, pointsAwarded := 3, count := 1 }]

/-- A one-team store for the C8 witness team conjunct. -/
def c8TeamEnv : Env :=
  { teamIds := [1], tasks := [], variants := [],
    users := [{ id := 7, role := RoleEnum.member, teamId := some 1,
                managedTeamIds := [] }],
    completions := [] }

/-- Witness for C8 (amended): member 7 of the counterexample store ranks
1 = 0 + 1 over the approved members; the two tied members both rank 1;
the single inhabited team ranks 1 = 0 + 1. -/
theorem c8_witness :
    ((1 : Nat) = ((approvedMembers c8Comps).filter
        (fun m => approvedTotal c8Comps 7 < approvedTotal c8Comps m)).length
        + 1) ∧
    (1 : Nat) = 1 ∧
    ((1 : Nat) = ((teamsWithMember c8TeamEnv).filter
        (fun t2 => teamApprovedTotal c8TeamEnv 1 <
          teamApprovedTotal c8TeamEnv t2)).length + 1) := by
  have hm : memberRank c8Comps 7 = some 1 := by
    norm_num [memberRank, memberScoreRows, approvedMembers, approvedTotal,
      c8Comps, List.dedup, List.pwFilter]
  have ha : memberRank c8TieComps 7 = some 1 := by
    norm_num [memberRank, memberScoreRows, approvedMembers, approvedTotal,
      c8TieComps, List.dedup, List.pwFilter]
  have hb : memberRank c8TieComps 8 = some 1 := by
    norm_num [memberRank, memberScoreRows, approvedMembers, approvedTotal,
      c8TieComps, List.dedup, List.pwFilter]
  have ht : teamRank c8TeamEnv 1 = some 1 := by
    norm_num [teamRank, teamScoreRows, teamsWithMember, teamApprovedTotal,
      c8TeamEnv, List.filter]
  refine ⟨c8_rank_amended.1 c8Comps 7 1 hm, ?_, c8_rank_amended.2.2 c8TeamEnv 1 1 ht⟩
  exact c8_rank_amended.2.1 c8TieComps 7 8 1 1 ha hb (by
    norm_num [approvedTotal, c8TieComps])

end Scoutcomp

namespace Scoutcomp

/-- The activity-window guard passes for a started, unexpired task. -/
theorem assertTaskWindow_ok (task : Task) (now : Time)
    (h1 : ¬ now < task.startTime)
    (h2 : ∀ e, task.endTime = some e → ¬ e < now) :
    assertTaskWindow task now = Except.ok () := by
  unfold assertTaskWindow
  rw [if_neg h1]
  cases he : task.endTime with
  | none => rfl
  | some e =>
    dsimp only
    rw [if_neg (h2 e he)]

/-- `effectiveCount` is the identity on positive counts. -/
theorem effectiveCount_pos (n : Nat) (h : 1 ≤ n) : effectiveCount n = n := by
  unfold effectiveCount
  rw [if_neg (by omega)]

/-- Claim C3: for a task with a configured recurrence limit, the
remaining allowance is `max(max_per_period − current-window usage, 0)`; a
submission of exactly `remaining` is accepted, and one of `remaining + 1`
is rejected with BadRequest with the store unchanged (no completion
recorded). -/
theorem c3_rate_limit_boundary (env : Env) (user : User) (taskId : Nat)
    (note : Option String) (now : Time) (newId : Nat) (task : Task)
    (m r : Nat)
    (htask : findTask env taskId = some task)
    (hscope : task.teamId = none ∨ user.role = RoleEnum.admin ∨
      user.teamId = task.teamId)
    (harch : task.isArchived = false)
    (hws : ¬ now < task.startTime)
    (hwe : ∀ e, task.endTime = some e → ¬ e < now)
    (hm : task.maxPerPeriod = some m)
    (hr : (calculateProgress env.completions task user.id now).remaining = some r)
    (hr1 : 1 ≤ r) :
    ((r : Int) =
      max ((m : Int) -
        ((currentWindowStats env.completions task user.id now).1 : Int)) 0) ∧
    submitCompletion env user taskId r note now newId =
      submitAccept env user task note now newId r ∧
    submitCompletion env user taskId (r + 1) note now newId =
      (env, Except.error HttpError.badRequest) := by
  have hrdef : r = m - (currentWindowStats env.completions task user.id now).1 := by
    unfold calculateProgress at hr
    rw [hm] at hr
    dsimp only at hr
    exact (Option.some.inj hr).symm
  refine ⟨by omega, ?_, ?_⟩
  · unfold submitCompletion
    rw [htask]
    dsimp only
    rw [assertTaskAccess_ok task user hscope harch]
    dsimp only
    rw [assertTaskWindow_ok task now hws hwe]
    dsimp only
    rw [hr]
    dsimp only
    rw [effectiveCount_pos r hr1]
    rw [if_neg (lt_irrefl r)]
  · unfold submitCompletion
    rw [htask]
    dsimp only
    rw [assertTaskAccess_ok task user hscope harch]
    dsimp only
    rw [assertTaskWindow_ok task now hws hwe]
    dsimp only
    rw [hr]
    dsimp only
    rw [effectiveCount_pos (r + 1) (by omega)]
    rw [if_pos (Nat.lt_succ_self r)]

/-- A daily-limited (3 per day) approval-required task for the C3
witness. -/
def w3Task : Task :=
  { id := 5, teamId := none, startTime := 0, endTime := none,
    pointsPerCompletion := 2, maxPerPeriod := some 3,
    periodUnit := some TaskPeriodUnit.day, periodCount := some 1,
    requiresApproval := true, isArchived := false }

/-- Store for the C3 witness: one approved completion of count 1 already
inside the current window. -/
def w3Env : Env :=
  { teamIds := [], tasks := [w3Task], variants := [], users := [wUser],
    completions :=
      [{ id := 1, memberId := 7, taskId := 5, variantId := none,
         status := CompletionStatus.approved, submittedAt := 100,
         reviewedAt := some 100, reviewerId := none, memberNote := none,
         adminNote := none, pointsAwarded := 2, count := 1 }] }

/-- Witness for C3: with usage 1 of 3, remaining is 2; submitting count 2
succeeds and count 3 fails with BadRequest. -/
theorem c3_witness :
    ((2 : Int) =
      max ((3 : Int) -
        ((currentWindowStats w3Env.completions w3Task wUser.id 1000).1 : Int)) 0) ∧
    submitCompletion w3Env wUser 5 2 none 1000 2 =
      submitAccept w3Env wUser w3Task none 1000 2 2 ∧
    submitCompletion w3Env wUser 5 3 none 1000 2 =
      (w3Env, Except.error HttpError.badRequest) := by
  have h := c3_rate_limit_boundary w3Env wUser 5 none 1000 2 w3Task 3 2
    (by decide) (Or.inl (by decide)) (by decide) (by decide)
    (by intro e he; exact Option.noConfusion he) (by decide) (by decide)
    (by decide)
  exact h

end Scoutcomp

namespace Scoutcomp

/-- Claim C5: Review rejects a pending target with BadRequest whatever the
current status; for a terminal target (with the task and member resolved
and an unscoped reviewer) it succeeds from any current status, sets the
status, recomputes the award from the variant/task price on approval and
zeroes it on rejection, stamps the reviewer and `reviewed_at`, and creates
a notification to the member. -/
theorem c5_review_state_machine :
    (∀ (env : Env) (reviewer : User) (completionId : Nat)
        (note : Option String) (now : Time) (completion : Completion),
      findCompletion env completionId = some completion →
      reviewCompletion env reviewer completionId
          { status := CompletionStatus.pending, adminNote := note } now =
        (env, Except.error HttpError.badRequest)) ∧
    (∀ (env : Env) (reviewer : User) (completionId : Nat)
        (s : CompletionStatus) (note : Option String) (now : Time)
        (completion : Completion) (task : Task) (member : User),
      findCompletion env completionId = some completion →
      s ≠ CompletionStatus.pending →
      findTask env completion.taskId = some task →
      findUser env completion.memberId = some member →
      reviewer.role ≠ RoleEnum.groupAdmin →
      reviewCompletion env reviewer completionId
          { status := s, adminNote := note } now =
        ({ env with
            completions :=
              env.completions.map
                (fun c =>
                  if c.id = completionId then
                    reviewUpdatedCompletion env task completion reviewer
                      { status := s, adminNote := note } now
                  else c) },
         Except.ok
           (reviewUpdatedCompletion env task completion reviewer
              { status := s, adminNote := note } now,
            { userId := completion.memberId, senderId := some reviewer.id })) ∧
      (reviewUpdatedCompletion env task completion reviewer
          { status := s, adminNote := note } now).status = s ∧
      (reviewUpdatedCompletion env task completion reviewer
          { status := s, adminNote := note } now).reviewerId =
        some reviewer.id ∧
      (reviewUpdatedCompletion env task completion reviewer
          { status := s, adminNote := note } now).reviewedAt = some now ∧
      (s = CompletionStatus.approved →
        (reviewUpdatedCompletion env task completion reviewer
            { status := s, adminNote := note } now).pointsAwarded =
          perUnitPoints env task completion * (completion.count : Rat)) ∧
      (s = CompletionStatus.rejected →
        (reviewUpdatedCompletion env task completion reviewer
            { status := s, adminNote := note } now).pointsAwarded = 0)) := by
  constructor
  · intro env reviewer completionId note now completion hfind
    unfold reviewCompletion
    rw [hfind]
    dsimp only
    rw [if_pos rfl]
  · intro env reviewer completionId s note now completion task member hfind
      hs htask hmember hrole
    have hmain : reviewCompletion env reviewer completionId
        { status := s, adminNote := note } now =
      ({ env with
          completions :=
            env.completions.map
              (fun c =>
                if c.id = completionId then
                  reviewUpdatedCompletion env task completion reviewer
                    { status := s, adminNote := note } now
                else c) },
       Except.ok
         (reviewUpdatedCompletion env task completion reviewer
            { status := s, adminNote := note } now,
          { userId := completion.memberId, senderId := some reviewer.id })) := by
      unfold reviewCompletion
      rw [hfind]
      dsimp only
      rw [if_neg hs, htask, hmember]
      dsimp only
      rw [show reviewAuthz reviewer member = Except.ok () from by
        unfold reviewAuthz; rw [if_neg hrole]]
    refine ⟨hmain, ?_, ?_, ?_, ?_, ?_⟩
    · by_cases ha : s = CompletionStatus.approved <;>
        simp [reviewUpdatedCompletion, ha]
    · by_cases ha : s = CompletionStatus.approved <;>
        simp [reviewUpdatedCompletion, ha]
    · by_cases ha : s = CompletionStatus.approved <;>
        simp [reviewUpdatedCompletion, ha]
    · intro ha
      simp [reviewUpdatedCompletion, ha]
    · intro ha
      have hna : ¬ (s = CompletionStatus.approved) := by
        rw [ha]; intro hx; exact CompletionStatus.noConfusion hx
      simp [reviewUpdatedCompletion, hna]

/-- Admin reviewer for the C5 witness. -/
def wAdmin : User :=
  { id := 1, role := RoleEnum.admin, teamId := none, managedTeamIds := [] }

/-- A variant of the sample task worth 7 points for the C5 witness. -/
def wVariant : TaskVariant := { id := 9, taskId := 4, points := 7 }

/-- A pending completion of the sample task referencing the variant,
count 2. -/
def w5Completion : Completion :=
  { id := 21, memberId := 7, taskId := 4, variantId := some 9,
    status := CompletionStatus.pending, submittedAt := 100,
    reviewedAt := none, reviewerId := none, memberNote := none,
    adminNote := none, pointsAwarded := 0, count := 2 }

/-- Store for the C5 witness. -/
def w5Env : Env :=
  { teamIds := [], tasks := [wTask], variants := [wVariant],
    users := [wUser, wAdmin], completions := [w5Completion] }

/-- Witness for C5: a pending target is rejected, and approving the
pending completion awards the variant price times the count (14) with the
reviewer stamped and a notification to member 7. -/
theorem c5_witness :
    reviewCompletion w5Env wAdmin 21
        { status := CompletionStatus.pending, adminNote := none } 2000 =
      (w5Env, Except.error HttpError.badRequest) ∧
    reviewCompletion w5Env wAdmin 21
        { status := CompletionStatus.approved, adminNote := none } 2000 =
      ({ w5Env with
          completions :=
            w5Env.completions.map
              (fun c =>
                if c.id = 21 then
                  reviewUpdatedCompletion w5Env wTask w5Completion wAdmin
                    { status := CompletionStatus.approved, adminNote := none }
                    2000
                else c) },
       Except.ok
         (reviewUpdatedCompletion w5Env wTask w5Completion wAdmin
            { status := CompletionStatus.approved, adminNote := none } 2000,
          { userId := 7, senderId := some 1 })) ∧
    (reviewUpdatedCompletion w5Env wTask w5Completion wAdmin
        { status := CompletionStatus.approved, adminNote := none }
        2000).pointsAwarded = 14 := by
  have hA := c5_review_state_machine.1 w5Env wAdmin 21 none 2000 w5Completion
    (by decide)
  have hB := c5_review_state_machine.2 w5Env wAdmin 21
    CompletionStatus.approved none 2000 w5Completion wTask wUser
    (by decide) (by decide) (by decide) (by decide) (by decide)
  refine ⟨hA, hB.1, ?_⟩
  have hpts := hB.2.2.2.2.1 rfl
  rw [hpts]
  norm_num [perUnitPoints, w5Env, w5Completion, wVariant, findVariant]

end Scoutcomp

namespace Scoutcomp

/-- Any successful AdminUpdate either returns the row untouched (all-None
payload) or commits exactly the `adminUpdateApply` mutation. -/
theorem updateUserCompletion_ok_char (env : Env) (actor : User)
    (userId : Nat) (completionId : Nat)
    (payload : CompletionAdminUpdatePayload) (now : Time) (env1 : Env)
    (cr : Completion)
    (h : updateUserCompletion env actor userId completionId payload now
          = (env1, Except.ok cr)) :
    ∃ completion,
      env.completions.find? (fun c => c.id = completionId ∧ c.memberId = userId)
        = some completion ∧
      ((payload.count = none ∧ payload.status = none ∧
          payload.adminNote = none ∧ cr = completion ∧ env1 = env) ∨
       (¬(payload.count = none ∧ payload.status = none ∧
            payload.adminNote = none) ∧
        payload.status ≠ some CompletionStatus.pending ∧
        cr = adminUpdateApply env actor completion payload now ∧
        env1 = { env with
          completions :=
            env.completions.map
              (fun c => if c.id = completionId then cr else c) })) := by
  unfold updateUserCompletion at h
  cases hfind : env.completions.find?
      (fun c => c.id = completionId ∧ c.memberId = userId) with
  | none =>
    rw [hfind] at h
    exact Except.noConfusion (congrArg Prod.snd h)
  | some completion =>
    rw [hfind] at h
    dsimp only at h
    refine ⟨completion, rfl, ?_⟩
    cases hauth : adminUpdateAuthz env actor completion with
    | error e =>
      rw [hauth] at h
      exact Except.noConfusion (congrArg Prod.snd h)
    | ok a =>
      rw [hauth] at h
      dsimp only at h
      by_cases h1 : payload.count = none ∧ payload.status = none ∧
          payload.adminNote = none
      · rw [if_pos h1] at h
        have hc := Except.ok.inj (congrArg Prod.snd h)
        have he : env = env1 := congrArg Prod.fst h
        exact Or.inl ⟨h1.1, h1.2.1, h1.2.2, hc.symm, he.symm⟩
      · rw [if_neg h1] at h
        by_cases h2 : payload.status = some CompletionStatus.pending
        · rw [if_pos h2] at h
          exact Except.noConfusion (congrArg Prod.snd h)
        · rw [if_neg h2] at h
          have hc := Except.ok.inj (congrArg Prod.snd h)
          have he : ({ env with
              completions :=
                env.completions.map
                  (fun c =>
                    if c.id = completionId then
                      adminUpdateApply env actor completion payload now
                    else c) } : Env) = env1 := congrArg Prod.fst h
          refine Or.inr ⟨h1, h2, hc.symm, ?_⟩
          rw [← he, hc]

/-- With a provided status equal to the current one, `adminUpdateApply`
never restamps reviewer or review time. -/
theorem adminUpdateApply_same_status_frame (env : Env) (actor : User)
    (completion : Completion) (payload : CompletionAdminUpdatePayload)
    (now : Time) (hst : payload.status = some completion.status) :
    (adminUpdateApply env actor completion payload now).reviewerId =
      completion.reviewerId ∧
    (adminUpdateApply env actor completion payload now).reviewedAt =
      completion.reviewedAt := by
  unfold adminUpdateApply
  rw [hst]
  dsimp only
  rw [if_neg (fun hx : completion.status ≠ completion.status => hx rfl)]
  cases hc : payload.count with
  | none =>
    dsimp only
    rw [if_neg (by simp)]
    cases ha : payload.adminNote <;> dsimp only <;> exact ⟨rfl, rfl⟩
  | some k =>
    dsimp only
    rw [if_pos (Or.inl (by simp) :
      some k ≠ none ∨ decide (completion.status ≠ completion.status) = true)]
    cases ha : payload.adminNote <;> dsimp only <;>
      cases ht : findTask env completion.taskId <;> dsimp only <;>
        (try split) <;> exact ⟨rfl, rfl⟩

/-- A payload providing neither count nor status leaves every reviewed
field of the row as it was. -/
theorem adminUpdateApply_note_only (env : Env) (actor : User)
    (completion : Completion) (note : Option String) (now : Time) :
    (adminUpdateApply env actor completion
        { count := none, status := none, adminNote := note } now).count =
      completion.count ∧
    (adminUpdateApply env actor completion
        { count := none, status := none, adminNote := note } now).status =
      completion.status ∧
    (adminUpdateApply env actor completion
        { count := none, status := none, adminNote := note } now).pointsAwarded =
      completion.pointsAwarded ∧
    (adminUpdateApply env actor completion
        { count := none, status := none, adminNote := note } now).reviewerId =
      completion.reviewerId ∧
    (adminUpdateApply env actor completion
        { count := none, status := none, adminNote := note } now).reviewedAt =
      completion.reviewedAt := by
  unfold adminUpdateApply
  dsimp only
  rw [if_neg (by simp)]
  cases ha : note <;> dsimp only <;> exact ⟨rfl, rfl, rfl, rfl, rfl⟩

/-- Claim C10: an AdminUpdate providing neither count nor status leaves
count, status, points, reviewer and review time unchanged (no point
recomputation), and an AdminUpdate whose provided status equals the
current one never restamps reviewer or review time. -/
theorem c10_admin_update_frame :
    (∀ (env : Env) (actor : User) (userId completionId : Nat)
        (note : Option String) (now : Time) (completion : Completion)
        (env1 : Env) (cr : Completion),
      env.completions.find? (fun c => c.id = completionId ∧ c.memberId = userId)
        = some completion →
      updateUserCompletion env actor userId completionId
          { count := none, status := none, adminNote := note } now =
        (env1, Except.ok cr) →
      cr.count = completion.count ∧ cr.status = completion.status ∧
      cr.pointsAwarded = completion.pointsAwarded ∧
      cr.reviewerId = completion.reviewerId ∧
      cr.reviewedAt = completion.reviewedAt) ∧
    (∀ (env : Env) (actor : User) (userId completionId : Nat)
        (payload : CompletionAdminUpdatePayload) (now : Time)
        (completion : Completion) (env1 : Env) (cr : Completion),
      env.completions.find? (fun c => c.id = completionId ∧ c.memberId = userId)
        = some completion →
      payload.status = some completion.status →
      updateUserCompletion env actor userId completionId payload now =
        (env1, Except.ok cr) →
      cr.reviewerId = completion.reviewerId ∧
      cr.reviewedAt = completion.reviewedAt) := by
  constructor
  · intro env actor userId completionId note now completion env1 cr hfind h
    obtain ⟨completion2, hfind2, hcases⟩ :=
      updateUserCompletion_ok_char env actor userId completionId
        { count := none, status := none, adminNote := note } now env1 cr h
    have hsame : completion2 = completion :=
      Option.some.inj (hfind2.symm.trans hfind)
    subst hsame
    rcases hcases with ⟨_, _, _, hcr, _⟩ | ⟨_, _, hcr, _⟩
    · subst hcr
      exact ⟨rfl, rfl, rfl, rfl, rfl⟩
    · subst hcr
      exact adminUpdateApply_note_only env actor completion2 note now
  · intro env actor userId completionId payload now completion env1 cr
      hfind hst h
    obtain ⟨completion2, hfind2, hcases⟩ :=
      updateUserCompletion_ok_char env actor userId completionId payload now
        env1 cr h
    have hsame : completion2 = completion :=
      Option.some.inj (hfind2.symm.trans hfind)
    subst hsame
    rcases hcases with ⟨_, _, _, hcr, _⟩ | ⟨_, _, hcr, _⟩
    · subst hcr
      exact ⟨rfl, rfl⟩
    · subst hcr
      exact adminUpdateApply_same_status_frame env actor completion2 payload
        now hst

/-- An approved completion row for the C10 witness. -/
def w10Completion : Completion :=
  { id := 31, memberId := 7, taskId := 4, variantId := none,
    status := CompletionStatus.approved, submittedAt := 100,
    reviewedAt := some 150, reviewerId := some 1, memberNote := none,
    adminNote := none, pointsAwarded := 10, count := 2 }

/-- Store for the C10 witness. -/
def w10Env : Env :=
  { teamIds := [], tasks := [wTask], variants := [],
    users := [wUser, wAdmin], completions := [w10Completion] }

/-- Witness for C10: a note-only update of the approved row keeps its
count, status, points and review stamps; an update re-providing the
current approved status with a new count keeps the review stamps. -/
theorem c10_witness :
    ((adminUpdateApply w10Env wAdmin w10Completion
        { count := none, status := none, adminNote := some "checked" }
        999).count = w10Completion.count ∧
     (adminUpdateApply w10Env wAdmin w10Completion
        { count := none, status := none, adminNote := some "checked" }
        999).status = w10Completion.status ∧
     (adminUpdateApply w10Env wAdmin w10Completion
        { count := none, status := none, adminNote := some "checked" }
        999).pointsAwarded = w10Completion.pointsAwarded ∧
     (adminUpdateApply w10Env wAdmin w10Completion
        { count := none, status := none, adminNote := some "checked" }
        999).reviewerId = w10Completion.reviewerId ∧
     (adminUpdateApply w10Env wAdmin w10Completion
        { count := none, status := none, adminNote := some "checked" }
        999).reviewedAt = w10Completion.reviewedAt) ∧
    ((adminUpdateApply w10Env wAdmin w10Completion
        { count := some 5, status := some CompletionStatus.approved,
          adminNote := none } 999).reviewerId = w10Completion.reviewerId ∧
     (adminUpdateApply w10Env wAdmin w10Completion
        { count := some 5, status := some CompletionStatus.approved,
          adminNote := none } 999).reviewedAt = w10Completion.reviewedAt) := by
  constructor
  · exact c10_admin_update_frame.1 w10Env wAdmin 7 31 (some "checked") 999
      w10Completion
      ({ w10Env with
          completions :=
            w10Env.completions.map
              (fun c =>
                if c.id = 31 then
                  adminUpdateApply w10Env wAdmin w10Completion
                    { count := none, status := none,
                      adminNote := some "checked" } 999
                else c) })
      (adminUpdateApply w10Env wAdmin w10Completion
        { count := none, status := none, adminNote := some "checked" } 999)
      (by decide) (by rfl)
  · exact c10_admin_update_frame.2 w10Env wAdmin 7 31
      { count := some 5, status := some CompletionStatus.approved,
        adminNote := none } 999 w10Completion
      ({ w10Env with
          completions :=
            w10Env.completions.map
              (fun c =>
                if c.id = 31 then
                  adminUpdateApply w10Env wAdmin w10Completion
                    { count := some 5,
                      status := some CompletionStatus.approved,
                      adminNote := none } 999
                else c) })
      (adminUpdateApply w10Env wAdmin w10Completion
        { count := some 5, status := some CompletionStatus.approved,
          adminNote := none } 999)
      (by decide) (by decide) (by rfl)

end Scoutcomp

namespace Scoutcomp

/-- The one-direction recurrence invariant the validator actually
enforces. -/
def recurrenceOneWay (t : Task) : Prop :=
  t.maxPerPeriod.isSome = true →
    (t.periodUnit.isSome = true ∧ t.periodCount.isSome = true)

/-- A passing period validation forces unit and count whenever the limit
is set. -/
theorem validatePeriodFields_ok_oneWay (m : Option Nat)
    (u : Option TaskPeriodUnit) (c : Option Nat)
    (h : validatePeriodFields m u c = Except.ok ()) :
    m.isSome = true → (u.isSome = true ∧ c.isSome = true) := by
  intro hm
  cases m with
  | none => cases hm
  | some k =>
    unfold validatePeriodFields at h
    dsimp only at h
    by_cases hv : u = none ∨ c = none
    · rw [if_pos hv] at h
      exact Except.noConfusion h
    · push_neg at hv
      exact ⟨Option.isSome_iff_ne_none.mpr hv.1,
        Option.isSome_iff_ne_none.mpr hv.2⟩

/-- The validator rejects a set limit without unit or count. -/
theorem validatePeriodFields_err (m : Nat) (u : Option TaskPeriodUnit)
    (c : Option Nat) (hv : u = none ∨ c = none) :
    validatePeriodFields (some m) u c = Except.error HttpError.badRequest := by
  unfold validatePeriodFields
  dsimp only
  rw [if_pos hv]

/-- A successful create returns exactly the built task row, whose period
trio is the payload's, validated. -/
theorem createTask_ok_char (env : Env) (payload : TaskCreatePayload)
    (now : Time) (newId : Nat) (env1 : Env) (t : Task)
    (h : createTask env payload now newId = (env1, Except.ok t)) :
    validatePeriodFields payload.maxPerPeriod payload.periodUnit
        payload.periodCount = Except.ok () ∧
    t.maxPerPeriod = payload.maxPerPeriod ∧
    t.periodUnit = payload.periodUnit ∧
    t.periodCount = payload.periodCount := by
  unfold createTask at h
  cases hv : validatePeriodFields payload.maxPerPeriod payload.periodUnit
      payload.periodCount with
  | error e =>
    rw [hv] at h
    exact Except.noConfusion (congrArg Prod.snd h)
  | ok a =>
    rw [hv] at h
    dsimp only at h
    cases ht : ensureTeamExists env payload.teamId with
    | error e =>
      rw [ht] at h
      exact Except.noConfusion (congrArg Prod.snd h)
    | ok b =>
      rw [ht] at h
      dsimp only at h
      have hc := Except.ok.inj (congrArg Prod.snd h)
      refine ⟨?_, by rw [← hc], by rw [← hc], by rw [← hc]⟩
      cases a
      rfl

/-- A successful update returns the merged task row; whenever any
recurrence key was in the patch, the merged trio passed validation. -/
theorem updateTask_ok_char (env : Env) (taskId : Nat)
    (p : TaskUpdatePayload) (env1 : Env) (t : Task)
    (h : updateTask env taskId p = (env1, Except.ok t)) :
    ∃ task, findTask env taskId = some task ∧
      t.maxPerPeriod = p.maxPerPeriod.getD task.maxPerPeriod ∧
      t.periodUnit = p.periodUnit.getD task.periodUnit ∧
      t.periodCount = p.periodCount.getD task.periodCount ∧
      ((p.maxPerPeriod.isSome || p.periodUnit.isSome || p.periodCount.isSome)
          = true →
        validatePeriodFields (p.maxPerPeriod.getD task.maxPerPeriod)
          (p.periodUnit.getD task.periodUnit)
          (p.periodCount.getD task.periodCount) = Except.ok ()) := by
  unfold updateTask at h
  cases hfind : findTask env taskId with
  | none =>
    rw [hfind] at h
    exact Except.noConfusion (congrArg Prod.snd h)
  | some task =>
    rw [hfind] at h
    dsimp only at h
    refine ⟨task, rfl, ?_⟩
    by_cases hcond : (p.maxPerPeriod.isSome || p.periodUnit.isSome ||
        p.periodCount.isSome) = true
    · rw [if_pos hcond] at h
      cases hv : validatePeriodFields (p.maxPerPeriod.getD task.maxPerPeriod)
          (p.periodUnit.getD task.periodUnit)
          (p.periodCount.getD task.periodCount) with
      | error e =>
        rw [hv] at h
        exact Except.noConfusion (congrArg Prod.snd h)
      | ok a =>
        rw [hv] at h
        dsimp only at h
        cases htc : (match p.teamId with
          | some tid => ensureTeamExists env tid
          | none => Except.ok ()) with
        | error e =>
          rw [htc] at h
          exact Except.noConfusion (congrArg Prod.snd h)
        | ok b =>
          rw [htc] at h
          dsimp only at h
          have hc := Except.ok.inj (congrArg Prod.snd h)
          refine ⟨by rw [← hc], by rw [← hc], by rw [← hc], fun hx => ?_⟩
          cases a
          rfl
    · rw [if_neg hcond] at h
      dsimp only at h
      cases htc : (match p.teamId with
        | some tid => ensureTeamExists env tid
        | none => Except.ok ()) with
      | error e =>
        rw [htc] at h
        exact Except.noConfusion (congrArg Prod.snd h)
      | ok b =>
        rw [htc] at h
        dsimp only at h
        have hc := Except.ok.inj (congrArg Prod.snd h)
        exact ⟨by rw [← hc], by rw [← hc], by rw [← hc],
          fun hx => absurd hx hcond⟩

/-- A create payload with recurrence unit and count but no limit. -/
def c6CexPayload : TaskCreatePayload :=
  { teamId := none, startTime := some 0, endTime := none,
    pointsPerCompletion := 1, maxPerPeriod := none,
    periodUnit := some TaskPeriodUnit.day, periodCount := some 1,
    requiresApproval := false }

/-- The task row that create builds from `c6CexPayload`. -/
def c6CexTask : Task :=
  { id := 1, teamId := none, startTime := 0, endTime := none,
    pointsPerCompletion := 1, maxPerPeriod := none,
    periodUnit := some TaskPeriodUnit.day, periodCount := some 1,
    requiresApproval := false, isArchived := false }

/-- Counterexample to C6 as stated: a create with `period_unit` and
`period_count` set but `max_per_period` absent succeeds, and the stored
task then has the unit and count set without the limit — the claimed
"if and only if" fails (the validator checks only one direction). -/
theorem c6_counterexample :
    createTask
        { teamIds := [], tasks := [], variants := [], users := [],
          completions := [] } c6CexPayload 0 1 =
      ({ teamIds := [], tasks := [c6CexTask], variants := [], users := [],
         completions := [] }, Except.ok c6CexTask) ∧
    ¬(c6CexTask.maxPerPeriod.isSome = true ↔
      (c6CexTask.periodUnit.isSome = true ∧
       c6CexTask.periodCount.isSome = true)) := by
  constructor
  · rfl
  · decide

/-- Claim C6 (amended): create and update enforce only the one-direction
invariant — after any successful create or update, if `max_per_period`
is set then `period_unit` and `period_count` are both set; any payload
whose merged trio has the limit set without unit or count is rejected
with BadRequest before mutation; the converse direction (unit/count set
without a limit) is not enforced. -/
theorem c6_recurrence_validation :
    (∀ (env : Env) (payload : TaskCreatePayload) (now : Time) (newId : Nat)
        (env1 : Env) (t : Task),
      createTask env payload now newId = (env1, Except.ok t) →
      recurrenceOneWay t) ∧
    (∀ (env : Env) (taskId : Nat) (p : TaskUpdatePayload) (env1 : Env)
        (t : Task) (task : Task),
      updateTask env taskId p = (env1, Except.ok t) →
      findTask env taskId = some task →
      recurrenceOneWay task → recurrenceOneWay t) ∧
    (∀ (env : Env) (payload : TaskCreatePayload) (now : Time) (newId : Nat)
        (m : Nat),
      payload.maxPerPeriod = some m →
      (payload.periodUnit = none ∨ payload.periodCount = none) →
      createTask env payload now newId =
        (env, Except.error HttpError.badRequest)) ∧
    (∀ (env : Env) (taskId : Nat) (p : TaskUpdatePayload) (task : Task)
        (m : Nat),
      findTask env taskId = some task →
      (p.maxPerPeriod.isSome || p.periodUnit.isSome || p.periodCount.isSome)
        = true →
      p.maxPerPeriod.getD task.maxPerPeriod = some m →
      (p.periodUnit.getD task.periodUnit = none ∨
       p.periodCount.getD task.periodCount = none) →
      updateTask env taskId p = (env, Except.error HttpError.badRequest)) := by
  refine ⟨?_, ?_, ?_, ?_⟩
  · intro env payload now newId env1 t h
    obtain ⟨hv, hmax, hunit, hcount⟩ :=
      createTask_ok_char env payload now newId env1 t h
    intro hm
    rw [hmax] at hm
    have := validatePeriodFields_ok_oneWay _ _ _ hv hm
    rw [hunit, hcount]
    exact this
  · intro env taskId p env1 t task h hfind hpre
    obtain ⟨task2, hfind2, hmax, hunit, hcount, hval⟩ :=
      updateTask_ok_char env taskId p env1 t h
    have hsame : task2 = task := Option.some.inj (hfind2.symm.trans hfind)
    subst hsame
    by_cases hcond : (p.maxPerPeriod.isSome || p.periodUnit.isSome ||
        p.periodCount.isSome) = true
    · intro hm
      rw [hmax] at hm
      have := validatePeriodFields_ok_oneWay _ _ _ (hval hcond) hm
      rw [hunit, hcount]
      exact this
    · have h1 : p.maxPerPeriod = none := by
        cases hx : p.maxPerPeriod with
        | none => rfl
        | some v => rw [hx] at hcond; simp at hcond
      have h2 : p.periodUnit = none := by
        cases hx : p.periodUnit with
        | none => rfl
        | some v => rw [hx] at hcond; simp at hcond
      have h3 : p.periodCount = none := by
        cases hx : p.periodCount with
        | none => rfl
        | some v => rw [hx] at hcond; simp at hcond
      rw [h1, Option.getD_none] at hmax
      rw [h2, Option.getD_none] at hunit
      rw [h3, Option.getD_none] at hcount
      intro hm
      rw [hmax] at hm
      have := hpre hm
      rw [hunit, hcount]
      exact this
  · intro env payload now newId m hm hvi
    unfold createTask
    have hv : validatePeriodFields payload.maxPerPeriod payload.periodUnit
        payload.periodCount = Except.error HttpError.badRequest := by
      rw [hm]
      exact validatePeriodFields_err m _ _ hvi
    rw [hv]
  · intro env taskId p task m hfind hcond hm hvi
    unfold updateTask
    rw [hfind]
    dsimp only
    rw [if_pos hcond]
    have hv : validatePeriodFields (p.maxPerPeriod.getD task.maxPerPeriod)
        (p.periodUnit.getD task.periodUnit)
        (p.periodCount.getD task.periodCount) =
        Except.error HttpError.badRequest := by
      rw [hm]
      exact validatePeriodFields_err m _ _ hvi
    rw [hv]

/-- A valid full-recurrence patch for the C6 witness. -/
def c6GoodPatch : TaskUpdatePayload :=
  { startTime := none, endTime := none, pointsPerCompletion := none,
    maxPerPeriod := some (some 5),
    periodUnit := some (some TaskPeriodUnit.day),
    periodCount := some (some 1), requiresApproval := none,
    isArchived := none, teamId := none }

/-- A patch setting the limit while the trio stays incomplete. -/
def c6BadPatch : TaskUpdatePayload :=
  { startTime := none, endTime := none, pointsPerCompletion := none,
    maxPerPeriod := some (some 5), periodUnit := none, periodCount := none,
    requiresApproval := none, isArchived := none, teamId := none }

/-- Store with the recurrence-free sample task, for the C6 witness. -/
def c6Env : Env :=
  { teamIds := [], tasks := [wTask], variants := [], users := [],
    completions := [] }

/-- Witness for C6 (amended) at concrete inputs: a valid create and a
valid update keep the one-way invariant, and the violating create and
update payloads are rejected with BadRequest, store unchanged. -/
theorem c6_witness :
    recurrenceOneWay c6CexTask ∧
    recurrenceOneWay
      { wTask with
        maxPerPeriod := some 5
        periodUnit := some TaskPeriodUnit.day
        periodCount := some 1 } ∧
    createTask c6Env
        { c6CexPayload with
          maxPerPeriod := some 2
          periodUnit := none
          periodCount := none } 0 9 =
      (c6Env, Except.error HttpError.badRequest) ∧
    updateTask c6Env 4 c6BadPatch =
      (c6Env, Except.error HttpError.badRequest) := by
  refine ⟨?_, ?_, ?_, ?_⟩
  · exact c6_recurrence_validation.1
      { teamIds := [], tasks := [], variants := [], users := [],
        completions := [] } c6CexPayload 0 1
      { teamIds := [], tasks := [c6CexTask], variants := [], users := [],
        completions := [] } c6CexTask (by rfl)
  · exact c6_recurrence_validation.2.1 c6Env 4 c6GoodPatch
      ({ c6Env with
          tasks := c6Env.tasks.map (fun t => if t.id = 4 then
            { wTask with
              maxPerPeriod := some 5
              periodUnit := some TaskPeriodUnit.day
              periodCount := some 1 } else t) })
      ({ wTask with
         maxPerPeriod := some 5
         periodUnit := some TaskPeriodUnit.day
         periodCount := some 1 })
      wTask (by rfl) (by decide) (fun hx => absurd hx (by decide))
  · exact c6_recurrence_validation.2.2.1 c6Env
      { c6CexPayload with
        maxPerPeriod := some 2
        periodUnit := none
        periodCount := none } 0 9 2 (by decide) (Or.inl (by decide))
  · exact c6_recurrence_validation.2.2.2 c6Env 4 c6BadPatch wTask 5
      (by decide) (by decide) (by decide) (Or.inl (by decide))

end Scoutcomp

namespace Scoutcomp

/-- A found task row has the looked-up id. -/
theorem findTask_id (env : Env) (taskId : Nat) (task : Task)
    (h : findTask env taskId = some task) : task.id = taskId := by
  have := List.find?_some h
  rwa [decide_eq_true_iff] at this

/-- Looking a found task up again by its own id returns it. -/
theorem findTask_self (env : Env) (taskId : Nat) (task : Task)
    (h : findTask env taskId = some task) :
    findTask env task.id = some task := by
  rw [findTask_id env taskId task h]
  exact h

/-- The points invariant only looks at the store through the task and
variant tables. -/
theorem pointsInvariant_stable (env env1 : Env)
    (h1 : env1.tasks = env.tasks) (h2 : env1.variants = env.variants)
    (c : Completion) (h : pointsInvariant env c) : pointsInvariant env1 c := by
  have hfT : ∀ tid, findTask env1 tid = findTask env tid := by
    intro tid; unfold findTask; rw [h1]
  have hfV : ∀ vid, findVariant env1 vid = findVariant env vid := by
    intro vid; unfold findVariant; rw [h2]
  obtain ⟨ha, hb⟩ := h
  refine ⟨ha, fun hs t ht => ?_⟩
  rw [hfT] at ht
  rw [hb hs t ht]
  unfold perUnitPoints
  cases hv : c.variantId with
  | none => rfl
  | some vid => simp only [Option.some_bind, hfV]

/-- The points invariant only looks at the status, award, task, variant
and count fields of the row. -/
theorem pointsInvariant_of_fields (env : Env) (c cnew : Completion)
    (h1 : cnew.status = c.status) (h2 : cnew.pointsAwarded = c.pointsAwarded)
    (h3 : cnew.taskId = c.taskId) (h4 : cnew.variantId = c.variantId)
    (h5 : cnew.count = c.count) (h : pointsInvariant env c) :
    pointsInvariant env cnew := by
  obtain ⟨ha, hb⟩ := h
  constructor
  · intro hs
    rw [h2]
    exact ha (by rw [← h1]; exact hs)
  · intro hs t ht
    rw [h3] at ht
    rw [h2, hb (by rw [← h1]; exact hs) t ht, h5]
    unfold perUnitPoints
    rw [h4]

/-- The row built by a successful submission satisfies the points
invariant. -/
theorem submitBuiltCompletion_inv (env : Env) (user : User) (taskId : Nat)
    (task : Task) (note : Option String) (now : Time) (newId : Nat)
    (count : Nat) (htask : findTask env taskId = some task) :
    pointsInvariant env (submitBuiltCompletion user task note now newId count) := by
  unfold pointsInvariant submitBuiltCompletion submitStatusTarget
  cases hreq : task.requiresApproval with
  | true =>
    constructor
    · intro _
      simp
    · intro hs
      simp at hs
  | false =>
    constructor
    · intro hne
      simp at hne
    · intro _ t ht
      dsimp only at ht ⊢
      have hT : findTask env task.id = some task := findTask_self env taskId task htask
      rw [hT] at ht
      have ht2 := Option.some.inj ht
      subst ht2
      simp [perUnitPoints]

end Scoutcomp

namespace Scoutcomp

/-- Any successful Review commits exactly the `reviewUpdatedCompletion`
mutation, after all guards passed. -/
theorem reviewCompletion_ok_char (env : Env) (reviewer : User)
    (completionId : Nat) (payload : CompletionReviewPayload) (now : Time)
    (env1 : Env) (r : Completion × Notification)
    (h : reviewCompletion env reviewer completionId payload now
          = (env1, Except.ok r)) :
    ∃ completion task member,
      findCompletion env completionId = some completion ∧
      payload.status ≠ CompletionStatus.pending ∧
      findTask env completion.taskId = some task ∧
      findUser env completion.memberId = some member ∧
      r.1 = reviewUpdatedCompletion env task completion reviewer payload now ∧
      env1 = { env with
        completions :=
          env.completions.map
            (fun x => if x.id = completionId then r.1 else x) } := by
  unfold reviewCompletion at h
  cases hfind : findCompletion env completionId with
  | none =>
    rw [hfind] at h
    exact Except.noConfusion (congrArg Prod.snd h)
  | some completion =>
    rw [hfind] at h
    dsimp only at h
    by_cases hp : payload.status = CompletionStatus.pending
    · rw [if_pos hp] at h
      exact Except.noConfusion (congrArg Prod.snd h)
    · rw [if_neg hp] at h
      cases htask : findTask env completion.taskId with
      | none =>
        rw [htask] at h
        dsimp only at h
        exact Except.noConfusion (congrArg Prod.snd h)
      | some task =>
        rw [htask] at h
        cases hmem : findUser env completion.memberId with
        | none =>
          rw [hmem] at h
          dsimp only at h
          exact Except.noConfusion (congrArg Prod.snd h)
        | some member =>
          rw [hmem] at h
          dsimp only at h
          cases hauth : reviewAuthz reviewer member with
          | error e =>
            rw [hauth] at h
            exact Except.noConfusion (congrArg Prod.snd h)
          | ok a =>
            rw [hauth] at h
            dsimp only at h
            have h2 : Except.ok
                (reviewUpdatedCompletion env task completion reviewer payload now,
                 ({ userId := completion.memberId,
                    senderId := some reviewer.id } : Notification)) =
                Except.ok r := congrArg Prod.snd h
            have hr := Except.ok.inj h2
            have hr1 : r.1 =
                reviewUpdatedCompletion env task completion reviewer payload now := by
              rw [← hr]
            have he : ({ env with
                completions :=
                  env.completions.map
                    (fun x =>
                      if x.id = completionId then
                        reviewUpdatedCompletion env task completion reviewer
                          payload now
                      else x) } : Env) = env1 := congrArg Prod.fst h
            refine ⟨completion, task, member, rfl, hp, htask, hmem, hr1, ?_⟩
            rw [← he, hr1]

/-- The row a review writes satisfies the points invariant. -/
theorem reviewUpdatedCompletion_inv (env : Env) (task : Task)
    (completion : Completion) (reviewer : User)
    (payload : CompletionReviewPayload) (now : Time)
    (htask : findTask env completion.taskId = some task) :
    pointsInvariant env
      (reviewUpdatedCompletion env task completion reviewer payload now) := by
  unfold reviewUpdatedCompletion pointsInvariant
  dsimp only
  by_cases hp : payload.status = CompletionStatus.approved
  · rw [if_pos hp]
    constructor
    · intro hne
      exact absurd hp hne
    · intro _ t0 ht0
      dsimp only at ht0
      rw [htask] at ht0
      cases Option.some.inj ht0
      rfl
  · rw [if_neg hp]
    constructor
    · intro _
      rfl
    · intro habs t0 _
      exact absurd habs hp

end Scoutcomp

namespace Scoutcomp

/-- Any successful AdminCreate commits exactly the
`adminCreatedCompletion` row, after all guards passed. -/
theorem createUserCompletion_ok_char (env : Env) (actor : User)
    (userId : Nat) (payload : CompletionAdminCreatePayload) (now : Time)
    (newId : Nat) (env1 : Env) (r : Completion × Notification)
    (h : createUserCompletion env actor userId payload now newId
          = (env1, Except.ok r)) :
    ∃ member task variantOpt,
      findUser env userId = some member ∧
      findTask env payload.taskId = some task ∧
      payload.status.getD CompletionStatus.approved ≠
        CompletionStatus.pending ∧
      adminCreateVariantCheck env task payload.variantId =
        Except.ok variantOpt ∧
      r.1 = adminCreatedCompletion task member actor payload variantOpt
              now newId ∧
      env1 = { env with completions := env.completions ++ [r.1] } := by
  unfold createUserCompletion at h
  cases hmem : findUser env userId with
  | none =>
    rw [hmem] at h
    exact Except.noConfusion (congrArg Prod.snd h)
  | some member =>
    rw [hmem] at h
    dsimp only at h
    cases hauth1 : adminCreateMemberAuthz actor member with
    | error e =>
      rw [hauth1] at h
      exact Except.noConfusion (congrArg Prod.snd h)
    | ok a =>
      rw [hauth1] at h
      dsimp only at h
      cases htask : findTask env payload.taskId with
      | none =>
        rw [htask] at h
        exact Except.noConfusion (congrArg Prod.snd h)
      | some task =>
        rw [htask] at h
        dsimp only at h
        cases hauth2 : adminCreateTaskAuthz actor task with
        | error e =>
          rw [hauth2] at h
          exact Except.noConfusion (congrArg Prod.snd h)
        | ok b =>
          rw [hauth2] at h
          dsimp only at h
          by_cases hp : payload.status.getD CompletionStatus.approved =
              CompletionStatus.pending
          · rw [if_pos hp] at h
            exact Except.noConfusion (congrArg Prod.snd h)
          · rw [if_neg hp] at h
            cases hvc : adminCreateVariantCheck env task payload.variantId with
            | error e =>
              rw [hvc] at h
              exact Except.noConfusion (congrArg Prod.snd h)
            | ok variantOpt =>
              rw [hvc] at h
              dsimp only at h
              have h2 : Except.ok
                  (adminCreatedCompletion task member actor payload variantOpt
                     now newId,
                   ({ userId := member.id,
                      senderId := some actor.id } : Notification)) =
                  Except.ok r := congrArg Prod.snd h
              have hr := Except.ok.inj h2
              have hr1 : r.1 = adminCreatedCompletion task member actor payload
                  variantOpt now newId := by rw [← hr]
              have he : ({ env with
                  completions :=
                    env.completions ++
                      [adminCreatedCompletion task member actor payload
                        variantOpt now newId] } : Env) = env1 :=
                congrArg Prod.fst h
              refine ⟨member, task, variantOpt, rfl, rfl, hp, hvc, hr1, ?_⟩
              rw [← he, hr1]

/-- The row an AdminCreate writes satisfies the points invariant. -/
theorem adminCreatedCompletion_inv (env : Env) (task : Task)
    (member : User) (actor : User)
    (payload : CompletionAdminCreatePayload)
    (variantOpt : Option TaskVariant) (now : Time) (newId : Nat)
    (htask : findTask env payload.taskId = some task)
    (hvc : adminCreateVariantCheck env task payload.variantId =
      Except.ok variantOpt) :
    pointsInvariant env
      (adminCreatedCompletion task member actor payload variantOpt now
        newId) := by
  unfold adminCreatedCompletion pointsInvariant
  dsimp only
  by_cases hp : payload.status.getD CompletionStatus.approved =
      CompletionStatus.approved
  · rw [if_pos hp]
    constructor
    · intro hne
      exact absurd hp hne
    · intro _ t0 ht0
      dsimp only at ht0
      rw [findTask_self env payload.taskId task htask] at ht0
      cases Option.some.inj ht0
      unfold perUnitPoints
      dsimp only
      unfold adminCreateVariantCheck at hvc
      cases hvid : payload.variantId with
      | none =>
        rw [hvid] at hvc
        have : (none : Option TaskVariant) = variantOpt :=
          Except.ok.inj hvc
        rw [← this]
        rfl
      | some vid =>
        rw [hvid] at hvc
        dsimp only at hvc
        cases hfv : findVariant env vid with
        | none =>
          rw [hfv] at hvc
          exact Except.noConfusion hvc
        | some v =>
          rw [hfv] at hvc
          dsimp only at hvc
          by_cases hvt : v.taskId = task.id
          · rw [if_pos hvt] at hvc
            have : (some v : Option TaskVariant) = variantOpt :=
              Except.ok.inj hvc
            rw [Option.some_bind, hfv, ← this]
          · rw [if_neg hvt] at hvc
            exact Except.noConfusion hvc
  · rw [if_neg hp]
    constructor
    · intro _
      rfl
    · intro habs t0 _
      exact absurd habs hp

end Scoutcomp

namespace Scoutcomp

/-- The recompute step of `adminUpdateApply` always lands in the points
invariant, whatever row it is given. -/
theorem pointsInvariant_recompute (env : Env) (c3 : Completion) :
    pointsInvariant env
      (match findTask env c3.taskId with
       | some t =>
         if c3.status = CompletionStatus.approved then
           { c3 with
             pointsAwarded :=
               (match c3.variantId.bind (findVariant env) with
                | some v => v.points
                | none => t.pointsPerCompletion) * (c3.count : Rat) }
         else { c3 with pointsAwarded := 0 }
       | none => { c3 with pointsAwarded := 0 }) := by
  cases ht : findTask env c3.taskId with
  | none =>
    constructor
    · intro _
      rfl
    · intro hs t0 ht0
      dsimp only at ht0
      rw [ht] at ht0
      exact Option.noConfusion ht0
  | some t =>
    dsimp only
    by_cases hs : c3.status = CompletionStatus.approved
    · rw [if_pos hs]
      constructor
      · intro hne
        exact absurd hs hne
      · intro _ t0 ht0
        dsimp only at ht0
        rw [ht] at ht0
        cases Option.some.inj ht0
        rfl
    · rw [if_neg hs]
      constructor
      · intro _
        rfl
      · intro habs t0 _
        exact absurd habs hs

/-- The AdminUpdate row mutation preserves the points invariant. -/
theorem adminUpdateApply_inv (env : Env) (actor : User)
    (completion : Completion) (payload : CompletionAdminUpdatePayload)
    (now : Time) (hpre : pointsInvariant env completion) :
    pointsInvariant env
      (adminUpdateApply env actor completion payload now) := by
  unfold adminUpdateApply
  dsimp only
  split
  · exact pointsInvariant_recompute env _
  · rename_i hcond
    push_neg at hcond
    obtain ⟨hcnt, hsc⟩ := hcond
    refine pointsInvariant_of_fields env completion _ ?_ ?_ ?_ ?_ ?_ hpre <;>
    · rw [hcnt]
      cases hps : payload.status with
      | none => cases han : payload.adminNote <;> rfl
      | some s =>
        rw [hps] at hsc
        dsimp only at hsc ⊢
        have hes : completion.status = s := by
          by_contra hne
          exact hsc (by simp [hne])
        rw [if_neg (fun hx : completion.status ≠ s => hx hes)]
        cases han : payload.adminNote <;> rfl

end Scoutcomp

namespace Scoutcomp

/-- Every successful public operation preserves the ledger-wide points
invariant. -/
theorem step_preserves_envInvariant (env env1 : Env)
    (h0 : envInvariant env) (hs : Step env env1) : envInvariant env1 := by
  cases hs with
  | submit user taskId payloadCount note now newId env1f c h =>
    cases hfind : findTask env taskId with
    | none =>
      unfold submitCompletion at h
      rw [hfind] at h
      exact Except.noConfusion (congrArg Prod.snd h)
    | some task =>
      obtain ⟨hc, henv⟩ := submitCompletion_ok_char env user taskId
        payloadCount note now newId env1 c task hfind h
      subst henv
      intro x hx
      simp only [List.mem_append, List.mem_singleton] at hx
      rcases hx with hx | hx
      · exact pointsInvariant_stable env _ rfl rfl x (h0 x hx)
      · subst hx
        subst hc
        exact pointsInvariant_stable env _ rfl rfl _
          (submitBuiltCompletion_inv env user taskId task note now newId _
            hfind)
  | adminCreate actor userId payload now newId env1f r h =>
    obtain ⟨member, task, variantOpt, hmem, htask, hp, hvc, hr1, henv⟩ :=
      createUserCompletion_ok_char env actor userId payload now newId env1 r h
    subst henv
    intro x hx
    simp only [List.mem_append, List.mem_singleton] at hx
    rcases hx with hx | hx
    · exact pointsInvariant_stable env _ rfl rfl x (h0 x hx)
    · subst hx
      rw [hr1]
      exact pointsInvariant_stable env _ rfl rfl _
        (adminCreatedCompletion_inv env task member actor payload variantOpt
          now newId htask hvc)
  | review reviewer completionId payload now env1f r h =>
    obtain ⟨completion, task, member, hfind, hp, htask, hmem, hr1, henv⟩ :=
      reviewCompletion_ok_char env reviewer completionId payload now env1 r h
    subst henv
    intro x hx
    obtain ⟨y, hy, hxy⟩ := List.mem_map.mp hx
    by_cases hid : y.id = completionId
    · rw [if_pos hid] at hxy
      subst hxy
      rw [hr1]
      exact pointsInvariant_stable env _ rfl rfl _
        (reviewUpdatedCompletion_inv env task completion reviewer payload now
          htask)
    · rw [if_neg hid] at hxy
      subst hxy
      exact pointsInvariant_stable env _ rfl rfl _ (h0 y hy)
  | adminUpdate actor userId completionId payload now env1f c h =>
    obtain ⟨completion, hfind, hcases⟩ :=
      updateUserCompletion_ok_char env actor userId completionId payload now
        env1 c h
    have hcm : completion ∈ env.completions := List.mem_of_find?_eq_some hfind
    rcases hcases with ⟨_, _, _, _, henv⟩ | ⟨_, _, hcr, henv⟩
    · subst henv
      exact h0
    · subst henv
      intro x hx
      obtain ⟨y, hy, hxy⟩ := List.mem_map.mp hx
      by_cases hid : y.id = completionId
      · rw [if_pos hid] at hxy
        subst hxy
        rw [hcr]
        exact pointsInvariant_stable env _ rfl rfl _
          (adminUpdateApply_inv env actor completion payload now
            (h0 completion hcm))
      · rw [if_neg hid] at hxy
        subst hxy
        exact pointsInvariant_stable env _ rfl rfl _ (h0 y hy)

/-- Claim C1: in every store reachable through the public operations
(Submit, AdminCreate, Review, AdminUpdate) from a store satisfying the
points invariant, every completion has `points_awarded = 0` off the
approved status and the variant/task price times its count on it; each
operation preserves the invariant. -/
theorem c1_points_invariant (env0 env : Env) (h0 : envInvariant env0)
    (h : Relation.ReflTransGen Step env0 env) : envInvariant env := by
  induction h with
  | refl => exact h0
  | tail hprev hstep ih =>
    exact step_preserves_envInvariant _ _ ih hstep

/-- Witness for C1: the empty sample store satisfies the invariant, one
submission step reaches the store holding the just-built completion, and
the invariant still holds there. -/
theorem c1_witness :
    envInvariant
      { wEnv with
        completions := [submitBuiltCompletion wUser wTask none 1000 1 3] } := by
  have h0 : envInvariant wEnv := by
    intro x hx
    simp [wEnv] at hx
  have hstep : Step wEnv
      { wEnv with
        completions := [submitBuiltCompletion wUser wTask none 1000 1 3] } :=
    Step.submit wEnv wUser 4 3 none 1000 1 _
      (submitBuiltCompletion wUser wTask none 1000 1 3) (by rfl)
  exact c1_points_invariant wEnv _ h0 (Relation.ReflTransGen.single hstep)

end Scoutcomp
